import Mathlib

/-!
# oauth: request authentication against a token-introspection service

A shallow embedding of `oauth/oauth.go`.

* A Go `string` is a Lean `String`; where the Go code works on bytes the model
  works on the UTF-8 encoding of the characters (`utf8Bytes`).
* A Go `map[string][]string` is a function `String → Option (List String)`;
  a map that may be `nil` is an `Option` of it.
* A `*http.Request` is an `Option Request`; a function that mutates the request
  in place returns the request as it is after the call.
* An `int64` is an `Int`; 64-bit wrap-around is written out with `% 2 ^ 64`.
* The HTTP exchange of `getAccessToken` is a parameter: a function from the
  requested URL to what the resty call yields.
* Sending a request is an effect: the resty call `restyGet` yields, next to the answer,
  the trace of the request it sent, `getAccessToken` passes that trace on with what it
  returns, and `AuthenticateRequest` keeps the traces of the calls it makes.
* A run of `AuthenticateRequest` is recorded as a `Run`: how it ended (a returned
  `*RestErr` or a Go panic), the request as it is then, and the trace of its lookups.
-/

namespace oauth

/-! ## Go strings as bytes -/

/-- UTF-8 encoding of one code point, as Go stores it inside a `string`. -/
def utf8Encode (c : Nat) : List Nat :=
  if c < 0x80 then [c]
  else if c < 0x800 then [0xC0 + c / 64, 0x80 + c % 64]
  else if c < 0x10000 then [0xE0 + c / 4096, 0x80 + c / 64 % 64, 0x80 + c % 64]
  else [0xF0 + c / 262144, 0x80 + c / 4096 % 64, 0x80 + c / 64 % 64, 0x80 + c % 64]

/-- The bytes of a Go string: `[]byte(s)`. -/
def utf8Bytes (s : String) : List Nat :=
  s.data.flatMap fun c => utf8Encode c.toNat

/-! ## Constants of `oauth.go` -/

/-- The base URL of `oauthRestClient`. -/
def baseUrl : String := "http://localhost:8080"

/-- The header that marks a public route. -/
def headerXPublic : String := "X-Public"

/-- The header that carries the client identity. -/
def headerXClientId : String := "X-Client-Id"

/-- The header that carries the caller identity. -/
def headerXCallerId : String := "X-Caller-Id"

/-- The query parameter that carries the access token id. -/
def paramAccessToken : String := "access_token"

/-- The message of the error returned when the HTTP call fails. -/
def getAccessTokenInternalErrorMessage : String := "error when trying to get access token"

/-- The constant `http.StatusNotFound`. -/
def StatusNotFound : Int := 404

/-- The constant `http.StatusInternalServerError`. -/
def StatusInternalServerError : Int := 500

/-! ## `net/textproto`: canonical header keys -/

/-- The `isTokenTable` of `net/textproto`: the bytes allowed in a header field name. -/
def validHeaderFieldByte (c : Nat) : Bool :=
  (48 ≤ c && c ≤ 57) || (65 ≤ c && c ≤ 90) || (97 ≤ c && c ≤ 122) ||
  c = 33 || c = 35 || c = 36 || c = 37 || c = 38 || c = 39 || c = 42 || c = 43 ||
  c = 45 || c = 46 || c = 94 || c = 95 || c = 96 || c = 124 || c = 126

/-- The second loop of `canonicalMIMEHeaderKey`: upper case at the start and after a
dash, lower case elsewhere. `upper` is the loop variable of that name. -/
def canonicalLoop : Bool → List Char → List Char
  | _, [] => []
  | upper, c :: cs =>
    let n := c.toNat
    let n := if upper && 97 ≤ n && n ≤ 122 then n - 32
             else if !upper && 65 ≤ n && n ≤ 90 then n + 32
             else n
    Char.ofNat n :: canonicalLoop (n = 45) cs

/-- Model of `textproto.CanonicalMIMEHeaderKey`: a key holding a byte that is not a valid header
field byte (a space included) is returned unchanged, any other key is canonicalised. -/
def CanonicalMIMEHeaderKey (s : String) : String :=
  if (utf8Bytes s).all validHeaderFieldByte then String.mk (canonicalLoop true s.data) else s

/-! ## `net/http`: headers, query values, requests -/

/-- A Go `map[string][]string` that is not nil. -/
abbrev ValuesMap := String → Option (List String)

/-- The empty map, `make(http.Header)`. -/
def emptyMap : ValuesMap := fun _ => none

/-- An `http.Header`: `none` is the nil map of a request built without one. -/
abbrev Header := Option ValuesMap

/-- Go map read `h[key]` on a map that may be nil; `none` when the key is not in the map. -/
def Header.lookup (h : Header) (key : String) : Option (List String) :=
  match h with
  | none => none
  | some m => m key

/-- Model of `Header.Get`: the first value under the canonical key, `""` when there is none. -/
def Header.Get (h : Header) (key : String) : String :=
  match Header.lookup h (CanonicalMIMEHeaderKey key) with
  | some (v :: _) => v
  | _ => ""

/-- Model of `Header.Del`: `delete(h, CanonicalMIMEHeaderKey(key))`, a no-op on a nil map. -/
def Header.Del (h : Header) (key : String) : Header :=
  match h with
  | none => none
  | some m => some fun k => if k = CanonicalMIMEHeaderKey key then none else m k

/-- A Go run-time panic. -/
inductive Panic where
  | nilPointerDereference
  | assignmentToEntryInNilMap
  deriving DecidableEq

/-- Model of `Header.Add`: `h[key] = append(h[key], value)` under the canonical key; writing to a
nil map panics. -/
def Header.Add (h : Header) (key value : String) : Except Panic Header :=
  match h with
  | none => .error .assignmentToEntryInNilMap
  | some m =>
    let key := CanonicalMIMEHeaderKey key
    .ok (some fun k => if k = key then some ((m key).getD [] ++ [value]) else m k)

/-- Model of `url.Values.Get`: the first value of the key, `""` when there is none. -/
def Values.Get (v : ValuesMap) (key : String) : String :=
  match v key with
  | some (x :: _) => x
  | _ => ""

/-- A `url.URL`, kept to what the package reads from it: `Query` is the map that
`URL.Query()` parses out of the raw query string. -/
structure URL where
  Query : ValuesMap

/-- An `http.Request`, kept to the two fields the package touches. Both may be nil, as in
the `http.Request{}` of the tests. -/
structure Request where
  Header : Header
  URL : Option URL

/-! ## `strings` and `unicode` -/

/-- Model of `unicode.IsSpace` on a code point: the Latin-1 cases and the `White_Space` table. -/
def IsSpace (r : Nat) : Bool :=
  (9 ≤ r && r ≤ 13) || r = 0x20 || r = 0x85 || r = 0xA0 || r = 0x1680 ||
  (0x2000 ≤ r && r ≤ 0x200a) || r = 0x2028 || r = 0x2029 || r = 0x202f || r = 0x205f ||
  r = 0x3000

/-- Model of `strings.TrimSpace`: the string without its leading and trailing white space. -/
def TrimSpace (s : String) : String :=
  String.mk (((s.data.dropWhile fun c => IsSpace c.toNat).reverse.dropWhile
    fun c => IsSpace c.toNat).reverse)

/-- The loop of `strings.Replace(s, old, new, -1)` for a non-empty `old`; `skip` counts the
characters of a match that are still to be passed over. -/
def replaceLoop (old new : List Char) : Nat → List Char → List Char
  | _, [] => []
  | skip + 1, _ :: cs => replaceLoop old new skip cs
  | 0, c :: cs =>
    if old.isPrefixOf (c :: cs) then new ++ replaceLoop old new (old.length - 1) cs
    else c :: replaceLoop old new 0 cs

/-- Model of `strings.Replace(s, old, new, -1)` for a non-empty `old`. -/
def Replace (s old new : String) : String :=
  String.mk (replaceLoop old.data new.data 0 s.data)

/-! ## `strconv.ParseInt(s, 10, 64)` -/

/-- The two errors `strconv` reports for a base and bit size that are valid. -/
inductive NumError where
  | ErrSyntax
  | ErrRange
  deriving DecidableEq

/-- The constant `maxUint64`. -/
def maxUint64 : Nat := 2 ^ 64 - 1

/-- The function `lower` of `strconv`: `c | ('x' - 'X')`. -/
def lower (c : Nat) : Nat := c ||| 32

/-- The digit switch of `ParseUint`: the value of byte `c`, `none` in the default case. -/
def digitValue (c : Nat) : Option Nat :=
  if 48 ≤ c ∧ c ≤ 57 then some (c - 48)
  else if 97 ≤ lower c ∧ lower c ≤ 122 then some (lower c - 97 + 10)
  else none

/-- The loop of `ParseUint` for base 10 and bit size 64 over the bytes still to read; `n` is the
loop variable of that name. The result is the returned pair (value, error). -/
def parseUintLoop : List Nat → Nat → Nat × Option NumError
  | [], n => (n, none)
  | c :: cs, n =>
    match digitValue c with
    | none => (0, some .ErrSyntax)
    | some d =>
      if d ≥ 10 then (0, some .ErrSyntax)
      else if n ≥ maxUint64 / 10 + 1 then (maxUint64, some .ErrRange)
      else
        let n := n * 10 % 2 ^ 64
        let n1 := (n + d) % 2 ^ 64
        if n1 < n ∨ n1 > maxUint64 then (maxUint64, some .ErrRange)
        else parseUintLoop cs n1

/-- Model of `strconv.ParseUint(s, 10, 64)` on the bytes of `s`. -/
def ParseUint (s : List Nat) : Nat × Option NumError :=
  if s = [] then (0, some .ErrSyntax) else parseUintLoop s 0

/-- Conversion to `int64` with two's complement wrap-around. -/
def toInt64 (x : Int) : Int := (x + 2 ^ 63) % 2 ^ 64 - 2 ^ 63

/-- The body of `strconv.ParseInt(s, 10, 64)` on the bytes of `s`. -/
def parseIntBytes (s : List Nat) : Int × Option NumError :=
  match s with
  | [] => (0, some .ErrSyntax)
  | c :: cs =>
    let neg := decide (c = 45)
    let s := if c = 43 then cs else if c = 45 then cs else c :: cs
    match ParseUint s with
    | (_, some .ErrSyntax) => (0, some .ErrSyntax)
    | (un, _) =>
      let cutoff : Nat := 2 ^ 63
      if !neg && un ≥ cutoff then ((cutoff : Int) - 1, some .ErrRange)
      else if neg && un > cutoff then (-(cutoff : Int), some .ErrRange)
      else
        let n := toInt64 un
        (if neg then toInt64 (-n) else n, none)

/-- Model of `strconv.ParseInt(s, 10, 64)`: the returned pair (value, error). -/
def ParseInt (s : String) : Int × Option NumError :=
  parseIntBytes (utf8Bytes s)

/-! ## `fmt.Sprintf("%v", n)` for an `int64` -/

/-- The digit loop of `fmt.fmtInteger` in base 10, most significant digit first. `fuel` bounds
the number of digits written. -/
def fmtDigits : Nat → Nat → List Char
  | 0, _ => []
  | fuel + 1, u =>
    if u ≥ 10 then fmtDigits fuel (u / 10) ++ [Char.ofNat (48 + u - u / 10 * 10)]
    else [Char.ofNat (48 + u)]

/-- Model of `fmt.Sprintf("%v", n)` for an `int64` n: `fmtInteger` in base 10, signed. Twenty
digits are enough for any `uint64`. -/
def Sprintf (n : Int) : String :=
  let u := (n % 2 ^ 64).toNat
  let negative := decide (n < 0)
  let u := if negative then (2 ^ 64 - u) % 2 ^ 64 else u
  String.mk ((if negative then ['-'] else []) ++ fmtDigits 20 u)

/-! ## `net/url`: path escaping -/

/-- Model of `shouldEscape(c, encodePathSegment)` of `net/url`. -/
def shouldEscape (c : Nat) : Bool :=
  if (48 ≤ c && c ≤ 57) || (65 ≤ c && c ≤ 90) || (97 ≤ c && c ≤ 122) then false
  else if c = 45 || c = 95 || c = 46 || c = 126 then false
  else if c = 36 || c = 38 || c = 43 || c = 58 || c = 61 || c = 64 then false
  else true

/-- One digit of `upperhex`. -/
def upperhex (d : Nat) : Char :=
  if d < 10 then Char.ofNat (48 + d) else Char.ofNat (55 + d)

/-- Model of `url.PathEscape`: every byte that must be escaped becomes `%XX`. -/
def PathEscape (s : String) : String :=
  String.mk ((utf8Bytes s).flatMap fun c =>
    if shouldEscape c then ['%', upperhex (c / 16), upperhex (c % 16)] else [Char.ofNat c])

/-! ## The types of `oauth.go` and of the `rest_errors` package -/

/-- The struct `accessToken`. -/
structure accessToken where
  Id : String
  UserId : Int
  ClientId : Int
  deriving DecidableEq

/-- Modelled from the spec: the error value `rest_errors.RestErr`, declared in the package
`ecommerce_utils-go/rest_errors`, which is not among the sources. The spec gives it a status,
a message and, for internal errors, a cause marker. -/
structure RestErr where
  Message : String
  Status : Int
  Causes : List String
  deriving DecidableEq

/-- Modelled from the spec: `rest_errors.NewInternalServerError(message, err)`, from the same
absent package: an internal-error value (status 500) carrying the message it is given and the
text of `err` as its cause marker. -/
def NewInternalServerError (message : String) (err : String) : RestErr :=
  { Message := message, Status := StatusInternalServerError, Causes := [err] }

/-! ## The resty client -/

/-- What `oauthRestClient.R()...Get(url)` yields. -/
inductive RoundTrip where
  /-- The call returned `err != nil`, as it does when the transport fails; `err` is the error
  text. -/
  | failed (err : String)
  /-- The call returned a response with this HTTP status code; `result` and `error` are the
  values of the variables `at` and `restErr` after the call, which resty fills from the body. -/
  | response (StatusCode : Int) (result : accessToken) (error : RestErr)

/-- The network as the client sees it: the outcome of a GET for each URL. -/
abbrev Transport := String → RoundTrip

/-- The URL resty requests for `R().SetPathParam("access_token_id", id).Get("/oauth/access_token")`
on a client with base URL `baseUrl`: every `{access_token_id}` of the path given to `Get` is
replaced by the escaped parameter, and the base URL is put in front of the relative path. -/
def requestURL (accessTokenId : String) : String :=
  baseUrl ++ Replace "/oauth/access_token" ("\x7b" ++ "access_token_id" ++ "\x7d")
    (PathEscape accessTokenId)

/-- One request sent by the resty client: the value given to `SetPathParam` for
`access_token_id`, which is the token id handed to `getAccessToken`, and the URL requested. -/
structure Lookup where
  accessTokenId : String
  url : String
  deriving DecidableEq

/-- Model of the call `oauthRestClient.R().SetPathParam("access_token_id", id).SetResult(&at).
SetError(&restErr).Get("/oauth/access_token")`: the client sends one GET and hands back what
the network answers. The second component is the trace of the call: the request that was
sent. -/
def restyGet (client : Transport) (accessTokenId : String) : RoundTrip × List Lookup :=
  (client (requestURL accessTokenId),
    [{ accessTokenId := accessTokenId, url := requestURL accessTokenId }])

/-! ## The functions of `oauth.go` -/

/-- `IsPublic` of `oauth.go`. -/
def IsPublic (request : Option Request) : Bool :=
  match request with
  | none => true
  | some r => r.Header.Get headerXPublic = "true"

/-- `GetCallerId` of `oauth.go`: 0 when the request is nil or `ParseInt` reports an error. -/
def GetCallerId (request : Option Request) : Int :=
  match request with
  | none => 0
  | some r =>
    match ParseInt (r.Header.Get headerXCallerId) with
    | (_, some _) => 0
    | (callerId, none) => callerId

/-- `GetClientId` of `oauth.go`: 0 when the request is nil or `ParseInt` reports an error. -/
def GetClientId (request : Option Request) : Int :=
  match request with
  | none => 0
  | some r =>
    match ParseInt (r.Header.Get headerXClientId) with
    | (_, some _) => 0
    | (clientId, none) => clientId

/-- `clearRequest` of `oauth.go`; the result is the request after the call. -/
def clearRequest (request : Option Request) : Option Request :=
  match request with
  | none => none
  | some r =>
    some { r with Header := (r.Header.Del headerXClientId).Del headerXCallerId }

/-- `getAccessToken` of `oauth.go`. The first component is the returned pair (`*accessToken`,
`*RestErr`), `none` being the nil pointer; the second is the trace of the one resty call the
function makes. -/
def getAccessToken (client : Transport) (accessTokenId : String) :
    (Option accessToken × Option RestErr) × List Lookup :=
  match restyGet client accessTokenId with
  | (.failed _, sent) =>
    ((none, some (NewInternalServerError getAccessTokenInternalErrorMessage "rest_client_error")),
      sent)
  | (.response code result error, sent) =>
    (if code > 399 then (none, some error) else (some result, none), sent)

/-- What a call of `AuthenticateRequest` leaves behind: how it ended (the returned `*RestErr`,
or a panic), the request as it is then, and the trace of the token lookups it made, in order:
the requests sent by its calls of `getAccessToken`. -/
structure Run where
  result : Except Panic (Option RestErr)
  request : Option Request
  lookups : List Lookup

/-- `AuthenticateRequest` of `oauth.go`. Taking a field of a nil pointer and writing to a nil
map end the run with a panic, as in Go. -/
def AuthenticateRequest (client : Transport) (request : Option Request) : Run :=
  match request with
  | none => { result := .ok none, request := none, lookups := [] }
  | some _ =>
    let request := clearRequest request
    match request with
    | none => { result := .error .nilPointerDereference, request := request, lookups := [] }
    | some r =>
      match r.URL with
      | none => { result := .error .nilPointerDereference, request := request, lookups := [] }
      | some u =>
        let accessTokenId := TrimSpace (Values.Get u.Query paramAccessToken)
        if accessTokenId = "" then { result := .ok none, request := request, lookups := [] }
        else
          match getAccessToken client accessTokenId with
          | ((_, some err), lookups) =>
            if err.Status = StatusNotFound then
              { result := .ok none, request := request, lookups := lookups }
            else { result := .ok (some err), request := request, lookups := lookups }
          | ((none, none), lookups) =>
            { result := .error .nilPointerDereference, request := request, lookups := lookups }
          | ((some a, none), lookups) =>
            match r.Header.Add headerXClientId (Sprintf a.ClientId) with
            | .error p => { result := .error p, request := request, lookups := lookups }
            | .ok h =>
              match Header.Add h headerXCallerId (Sprintf a.UserId) with
              | .error p =>
                { result := .error p, request := some { r with Header := h },
                  lookups := lookups }
              | .ok h =>
                { result := .ok none, request := some { r with Header := h },
                  lookups := lookups }

/-! ## Vocabulary of the specification

The definitions below are not translated from the code: they say, in the words of the
specification, what the theorems compare the code with. -/

/-- The number that a string of decimal digits denotes, read from the left; `n` is the number
read so far. -/
def decimalValueFrom (n : Nat) (ds : List Char) : Nat :=
  ds.foldl (fun n c => 10 * n + (c.toNat - 48)) n

/-- The number that a string of decimal digits denotes. -/
def decimalValue (ds : List Char) : Nat := decimalValueFrom 0 ds

/-- The character is one of the ASCII digits `0` to `9`. -/
def IsDigit (c : Char) : Prop := 48 ≤ c.toNat ∧ c.toNat ≤ 57

instance IsDigit.decidable (c : Char) : Decidable (IsDigit c) :=
  inferInstanceAs (Decidable (48 ≤ c.toNat ∧ c.toNat ≤ 57))

/-- The string is a base-10 integer literal denoting `n`: one or more decimal digits, with or
without a sign `+` or `-` in front. -/
def IsDecimalLiteral (s : String) (n : Int) : Prop :=
  ∃ ds : List Char, ds ≠ [] ∧ (∀ c ∈ ds, IsDigit c) ∧
    ((s.data = ds ∧ n = decimalValue ds) ∨ (s.data = '+' :: ds ∧ n = decimalValue ds) ∨
      (s.data = '-' :: ds ∧ n = -(decimalValue ds : Int)))

/-- The string is the decimal string of `n`: its digits without a leading zero (the single
digit `0` for zero), after a `-` when `n` is negative, and no `+`. -/
def IsCanonicalDecimal (s : String) (n : Int) : Prop :=
  ∃ ds : List Char, ds ≠ [] ∧ (∀ c ∈ ds, IsDigit c) ∧ (ds = ['0'] ∨ ds.head? ≠ some '0') ∧
    ((0 ≤ n ∧ s.data = ds ∧ n = decimalValue ds) ∨
      (n < 0 ∧ s.data = '-' :: ds ∧ n = -(decimalValue ds : Int)))

/-- The first of the values found under a key, when there is one. -/
def firstOf (vs : Option (List String)) : Option String :=
  match vs with
  | some (v :: _) => some v
  | _ => none

/-- The request carries the 64-bit identity `n` under the header `key`: the first value of that
header is a base-10 integer literal denoting `n`, and `n` is in the signed 64-bit range. -/
def HoldsIdentity (request : Option Request) (key : String) (n : Int) : Prop :=
  ∃ r s, request = some r ∧ firstOf (Header.lookup r.Header key) = some s ∧
    IsDecimalLiteral s n ∧ -2 ^ 63 ≤ n ∧ n ≤ 2 ^ 63 - 1

/-- The string is empty or made only of white space. -/
def IsBlank (s : String) : Prop := ∀ c ∈ s.data, IsSpace c.toNat = true

instance IsBlank.decidable (s : String) : Decidable (IsBlank s) :=
  inferInstanceAs (Decidable (∀ c ∈ s.data, IsSpace c.toNat = true))

/-- The request has a URL, and the `access_token` query parameter of that URL is absent, empty
or made only of white space. -/
def BlankAccessToken (r : Request) : Prop :=
  ∃ u, r.URL = some u ∧
    (firstOf (u.Query paramAccessToken) = none ∨
      ∃ v, firstOf (u.Query paramAccessToken) = some v ∧ IsBlank v)

/-- The request has a URL whose `access_token` query parameter has `v` as its first value,
and `v` is not blank. -/
def NonBlankAccessToken (r : Request) (v : String) : Prop :=
  ∃ u, r.URL = some u ∧ firstOf (u.Query paramAccessToken) = some v ∧ ¬ IsBlank v

/-- The request has neither an `X-Client-Id` nor an `X-Caller-Id` header. -/
def IdentityHeadersAbsent (request : Option Request) : Prop :=
  ∃ r, request = some r ∧ Header.lookup r.Header headerXClientId = none ∧
    Header.lookup r.Header headerXCallerId = none

/-- The two requests differ at most in the values they carry under `X-Client-Id` and
`X-Caller-Id`: same URL, and header maps that agree on every other key. -/
def SameButIdentityHeaders (r1 r2 : Request) : Prop :=
  r1.URL = r2.URL ∧
    match r1.Header, r2.Header with
    | none, none => True
    | some h1, some h2 => ∀ k, k ≠ headerXClientId → k ≠ headerXCallerId → h1 k = h2 k
    | _, _ => False

/-- The string `t` is `v` without its leading and trailing white space: `v` is `t` between two
runs of white space, and `t` neither starts nor ends with white space. -/
def IsTrimOf (t v : String) : Prop :=
  ∃ pre post : List Char, v.data = pre ++ t.data ++ post ∧
    (∀ c ∈ pre, IsSpace c.toNat = true) ∧ (∀ c ∈ post, IsSpace c.toNat = true) ∧
    (∀ c, t.data.head? = some c → IsSpace c.toNat = false) ∧
    (∀ c, t.data.getLast? = some c → IsSpace c.toNat = false)

/-! ## Requests and services used as examples -/

/-- The query `access_token=v`. -/
def tokenQuery (v : String) : ValuesMap :=
  fun k => if k = paramAccessToken then some [v] else none

/-- The request of the authentication tests: `http.NewRequest("GET", baseUrl, nil)` with the
query `access_token=test`. -/
def requestWithToken : Request :=
  { Header := some emptyMap, URL := some { Query := tokenQuery "test" } }

/-- The request `http.Request{}` of `TestIsPublicWithoutPublicHeader`: no header map and no
URL. -/
def emptyRequest : Request :=
  { Header := none, URL := none }

/-- The same request built as a struct literal `http.Request{URL: u}`: its header map is nil. -/
def requestWithoutHeader : Request :=
  { Header := none, URL := some { Query := tokenQuery "test" } }

/-- The request of `TestAuthentiaceRequestWithoutQueryParam` with identity headers put in by the
caller: two values under `X-Client-Id`, one under `X-Caller-Id`, and no query. -/
def spoofedRequestWithoutToken : Request :=
  { Header := some fun k =>
      if k = headerXClientId then some ["1", "2"]
      else if k = headerXCallerId then some ["9"]
      else none,
    URL := some { Query := emptyMap } }

/-- A request whose `access_token` parameter is made of white space only, with identity
headers put in by the caller. -/
def spoofedRequestWithBlankToken : Request :=
  { Header := some fun k =>
      if k = headerXClientId then some ["1", "2"]
      else if k = headerXCallerId then some ["9"]
      else none,
    URL := some { Query := tokenQuery " \t\n " } }

/-- The request `requestWithToken` with identity headers put in by the caller. -/
def spoofedRequestWithToken : Request :=
  { Header := some fun k =>
      if k = headerXClientId then some ["1", "2"]
      else if k = headerXCallerId then some ["9"]
      else none,
    URL := some { Query := tokenQuery "test" } }

/-- The zero value of `accessToken`. -/
def zeroAccessToken : accessToken := { Id := "", UserId := 0, ClientId := 0 }

/-- The zero value of `RestErr`. -/
def zeroRestErr : RestErr := { Message := "", Status := 0, Causes := [] }

/-- A service that answers every request with HTTP 200 and the token of the tests. -/
def serviceFound : Transport :=
  fun _ => .response 200 { Id := "test", UserId := 234, ClientId := 345 } zeroRestErr

/-- A service that answers every request with HTTP `code` and an error body that decodes to
`body`. -/
def serviceError (code : Int) (body : RestErr) : Transport :=
  fun _ => .response code zeroAccessToken body

/-- A network on which every call fails with the given error text. -/
def serviceDown (text : String) : Transport :=
  fun _ => .failed text

/-- The request of the tests with white space around the token: `access_token=%20%20test%09`. -/
def requestWithPaddedToken : Request :=
  { Header := some emptyMap, URL := some { Query := tokenQuery "  test\t" } }

/-- A service that resolves every token to the two extremes of `int64`: client id `-2^63` and
user id `2^63-1`. -/
def serviceExtremes : Transport :=
  fun _ => .response 200
    { Id := "test", UserId := 9223372036854775807, ClientId := -9223372036854775808 } zeroRestErr

/-! ## Characters and bytes -/

theorem char_ofNat_toNat_small (n : Nat) (h : n < 128) : (Char.ofNat n).toNat = n := by
  have : n.isValidChar := by unfold Nat.isValidChar; omega
  simp [Char.ofNat, this, Char.ofNatAux, Char.toNat, UInt32.toNat]

theorem char_eq_of_toNat (c : Char) (n : Nat) (h : c.toNat = n) : c = Char.ofNat n := by
  rw [← h]; exact (Char.ofNat_toNat c).symm

theorem utf8Encode_ascii (n : Nat) (h : n < 128) : utf8Encode n = [n] := by
  simp [utf8Encode, h]

theorem utf8Encode_high (n : Nat) (h : 128 ≤ n) : ∀ b ∈ utf8Encode n, 128 ≤ b := by
  intro b hb
  unfold utf8Encode at hb
  split_ifs at hb <;> simp at hb <;> omega

theorem utf8Encode_ne_nil (n : Nat) : utf8Encode n ≠ [] := by
  unfold utf8Encode; split_ifs <;> simp

/-! ## The loop of ParseUint -/

/-- The number read so far never decreases. -/
theorem byteValue_ge (bs : List Nat) (n : Nat) :
    n ≤ bs.foldl (fun n b => 10 * n + (b - 48)) n := by
  induction bs generalizing n with
  | nil => simp
  | cons b bs ih =>
    simp only [List.foldl_cons]
    exact le_trans (by omega) (ih _)

theorem digitValue_digit (b : Nat) (h : 48 ≤ b ∧ b ≤ 57) : digitValue b = some (b - 48) := by
  simp [digitValue, h]

theorem digitValue_other (b : Nat) (h : ¬ (48 ≤ b ∧ b ≤ 57)) :
    digitValue b = none ∨ ∃ d, digitValue b = some d ∧ 10 ≤ d := by
  unfold digitValue
  rw [if_neg h]
  split_ifs
  · right; exact ⟨_, rfl, by omega⟩
  · left; rfl

theorem parseUintLoop_digits (bs : List Nat) (hbs : ∀ b ∈ bs, 48 ≤ b ∧ b ≤ 57) (n : Nat)
    (hn : n < 2 ^ 64) :
    parseUintLoop bs n =
      if bs.foldl (fun n b => 10 * n + (b - 48)) n < 2 ^ 64
      then (bs.foldl (fun n b => 10 * n + (b - 48)) n, none)
      else (maxUint64, some .ErrRange) := by
  induction bs generalizing n with
  | nil => simp only [parseUintLoop, List.foldl_nil]; rw [if_pos hn]
  | cons b bs ih =>
    have hb := hbs b (List.mem_cons_self _ _)
    have hrest : ∀ b ∈ bs, 48 ≤ b ∧ b ≤ 57 := fun x hx => hbs x (List.mem_cons_of_mem _ hx)
    have hge := byteValue_ge bs (10 * n + (b - 48))
    simp only [parseUintLoop, digitValue_digit b hb, List.foldl_cons]
    have hd : ¬ (b - 48 ≥ 10) := by omega
    rw [if_neg hd]
    simp only [maxUint64] at *
    by_cases hc : n ≥ (2 ^ 64 - 1) / 10 + 1
    · rw [if_pos hc, if_neg (by omega)]
    · rw [if_neg hc]
      have h10 : n * 10 % 2 ^ 64 = n * 10 := Nat.mod_eq_of_lt (by omega)
      simp only [h10]
      by_cases ho : n * 10 + (b - 48) < 2 ^ 64
      · have h1 : (n * 10 + (b - 48)) % 2 ^ 64 = n * 10 + (b - 48) := Nat.mod_eq_of_lt ho
        simp only [h1]
        rw [if_neg (by omega)]
        have := ih hrest (n * 10 + (b - 48)) ho
        rw [this]
        have e : 10 * n + (b - 48) = n * 10 + (b - 48) := by omega
        rw [e]
      · have h1 : (n * 10 + (b - 48)) % 2 ^ 64 = n * 10 + (b - 48) - 2 ^ 64 := by omega
        simp only [h1]
        rw [if_pos (by omega), if_neg (by omega)]

theorem parseUintLoop_nondigit (bs : List Nat) (hbs : ¬ ∀ b ∈ bs, 48 ≤ b ∧ b ≤ 57) (n : Nat) :
    (parseUintLoop bs n).2 = some .ErrSyntax ∨ parseUintLoop bs n = (maxUint64, some .ErrRange) := by
  induction bs generalizing n with
  | nil => simp at hbs
  | cons b bs ih =>
    by_cases hb : 48 ≤ b ∧ b ≤ 57
    · have hrest : ¬ ∀ b ∈ bs, 48 ≤ b ∧ b ≤ 57 := by
        intro h; apply hbs; intro x hx
        rcases List.mem_cons.1 hx with rfl | hx
        · exact hb
        · exact h x hx
      simp only [parseUintLoop, digitValue_digit b hb]
      split_ifs
      · left; rfl
      · right; rfl
      · right; rfl
      · exact ih hrest _
    · rcases digitValue_other b hb with h | ⟨d, h, hd⟩
      · left; simp [parseUintLoop, h]
      · left; simp [parseUintLoop, h, hd]

/-! ## ParseInt on bytes -/

theorem ParseUint_digits (bs : List Nat) (hne : bs ≠ []) (hbs : ∀ b ∈ bs, 48 ≤ b ∧ b ≤ 57) :
    ParseUint bs =
      if bs.foldl (fun n b => 10 * n + (b - 48)) 0 < 2 ^ 64
      then (bs.foldl (fun n b => 10 * n + (b - 48)) 0, none)
      else (maxUint64, some .ErrRange) := by
  unfold ParseUint
  rw [if_neg hne]
  exact parseUintLoop_digits bs hbs 0 (by norm_num)

theorem ParseUint_bad (bs : List Nat) (h : bs = [] ∨ ¬ ∀ b ∈ bs, 48 ≤ b ∧ b ≤ 57) :
    (ParseUint bs).2 = some .ErrSyntax ∨ ParseUint bs = (maxUint64, some .ErrRange) := by
  unfold ParseUint
  by_cases hne : bs = []
  · left; simp [hne]
  · rw [if_neg hne]
    rcases h with h | h
    · exact absurd h hne
    · exact parseUintLoop_nondigit bs h 0

/-- The part of `parseIntBytes` after the sign has been taken off. -/
theorem parseIntBytes_cons (c : Nat) (cs : List Nat) :
    parseIntBytes (c :: cs) =
      (match ParseUint (if c = 43 then cs else if c = 45 then cs else c :: cs) with
      | (_, some .ErrSyntax) => (0, some .ErrSyntax)
      | (un, _) =>
        if !(decide (c = 45)) && un ≥ 2 ^ 63 then (((2 ^ 63 : Nat) : Int) - 1, some .ErrRange)
        else if decide (c = 45) && un > 2 ^ 63 then (-((2 ^ 63 : Nat) : Int), some .ErrRange)
        else (if decide (c = 45) then toInt64 (-(toInt64 un)) else toInt64 un, none)) := by
  rfl

theorem toInt64_small (v : Nat) (h : v < 2 ^ 63) : toInt64 (v : Int) = (v : Int) := by
  unfold toInt64; omega

theorem toInt64_neg (v : Nat) (h : v ≤ 2 ^ 63) : toInt64 (-(toInt64 (v : Int))) = -(v : Int) := by
  unfold toInt64; omega

theorem parseIntBytes_digits (c : Nat) (cs rest : List Nat)
    (hrest : rest = if c = 43 then cs else if c = 45 then cs else c :: cs)
    (hne : rest ≠ []) (hd : ∀ b ∈ rest, 48 ≤ b ∧ b ≤ 57) :
    parseIntBytes (c :: cs) =
      if c = 45 then
        (if rest.foldl (fun n b => 10 * n + (b - 48)) 0 ≤ 2 ^ 63
         then (-((rest.foldl (fun n b => 10 * n + (b - 48)) 0 : Nat) : Int), none)
         else (-((2 ^ 63 : Nat) : Int), some .ErrRange))
      else
        (if rest.foldl (fun n b => 10 * n + (b - 48)) 0 < 2 ^ 63
         then (((rest.foldl (fun n b => 10 * n + (b - 48)) 0 : Nat) : Int), none)
         else (((2 ^ 63 : Nat) : Int) - 1, some .ErrRange)) := by
  rw [parseIntBytes_cons, ← hrest, ParseUint_digits rest hne hd]
  generalize rest.foldl (fun n b => 10 * n + (b - 48)) 0 = v
  by_cases h64 : v < 2 ^ 64
  · rw [if_pos h64]
    simp only []
    by_cases hc : c = 45
    · simp only [hc, decide_True, Bool.not_true, Bool.false_and, Bool.true_and, if_true,
        Bool.false_eq_true, if_false, decide_eq_true_eq]
      by_cases hv : v ≤ 2 ^ 63
      · rw [if_pos hv, if_neg (by omega), toInt64_neg v hv]
      · rw [if_neg hv, if_pos (by omega)]
    · simp only [hc, decide_False, Bool.not_false, Bool.false_and, Bool.true_and, if_false,
        Bool.false_eq_true, decide_eq_true_eq]
      by_cases hv : v < 2 ^ 63
      · rw [if_pos hv, if_neg (by omega), toInt64_small v hv]
      · rw [if_neg hv, if_pos (by omega)]
  · rw [if_neg h64]
    simp only [maxUint64]
    by_cases hc : c = 45
    · simp only [hc, decide_True, Bool.not_true, Bool.false_and, Bool.true_and, if_true,
        Bool.false_eq_true, if_false, decide_eq_true_eq]
      rw [if_pos (by omega), if_neg (by omega)]
    · simp only [hc, decide_False, Bool.not_false, Bool.false_and, Bool.true_and, if_false,
        Bool.false_eq_true, decide_eq_true_eq]
      rw [if_pos (by omega), if_neg (by omega)]

theorem parseIntBytes_bad (c : Nat) (cs rest : List Nat)
    (hrest : rest = if c = 43 then cs else if c = 45 then cs else c :: cs)
    (h : rest = [] ∨ ¬ ∀ b ∈ rest, 48 ≤ b ∧ b ≤ 57) :
    (parseIntBytes (c :: cs)).2 ≠ none := by
  rw [parseIntBytes_cons, ← hrest]
  rcases ParseUint_bad rest h with h1 | h1
  · obtain ⟨u, e⟩ : ∃ u, ParseUint rest = (u, some .ErrSyntax) := ⟨(ParseUint rest).1, by rw [← h1]⟩
    rw [e]; simp
  · rw [h1]
    simp only [maxUint64]
    by_cases hc : c = 45 <;> simp [hc]

/-! ## ParseInt on strings: exactly the literals in range -/

theorem utf8Bytes_cons (c : Char) (cs : List Char) :
    utf8Bytes (String.mk (c :: cs)) = utf8Encode c.toNat ++ utf8Bytes (String.mk cs) := by
  simp [utf8Bytes]

theorem utf8Bytes_nil : utf8Bytes (String.mk []) = [] := rfl

theorem utf8Bytes_digits (ds : List Char) (h : ∀ c ∈ ds, IsDigit c) :
    utf8Bytes (String.mk ds) = ds.map Char.toNat := by
  induction ds with
  | nil => rfl
  | cons c cs ih =>
    have hc := h c (List.mem_cons_self _ _)
    rw [utf8Bytes_cons, ih (fun x hx => h x (List.mem_cons_of_mem _ hx)),
      utf8Encode_ascii _ (by unfold IsDigit at hc; omega)]
    rfl

theorem digits_of_utf8Bytes (l : List Char)
    (h : ∀ b ∈ utf8Bytes (String.mk l), 48 ≤ b ∧ b ≤ 57) : ∀ c ∈ l, IsDigit c := by
  induction l with
  | nil => intro c hc; cases hc
  | cons x xs ih =>
    rw [utf8Bytes_cons] at h
    have hx : IsDigit x := by
      by_cases hs : x.toNat < 128
      · have := h x.toNat (by rw [utf8Encode_ascii _ hs]; simp)
        exact this
      · obtain ⟨b, hb⟩ := List.exists_mem_of_ne_nil _ (utf8Encode_ne_nil x.toNat)
        have h1 := utf8Encode_high x.toNat (by omega) b hb
        have h2 := h b (List.mem_append_left _ hb)
        omega
    intro c hc
    rcases List.mem_cons.1 hc with rfl | hc
    · exact hx
    · exact ih (fun b hb => h b (List.mem_append_right _ hb)) c hc

theorem byteValue_map (ds : List Char) :
    (ds.map Char.toNat).foldl (fun n b => 10 * n + (b - 48)) 0 = decimalValue ds := by
  unfold decimalValue decimalValueFrom
  rw [List.foldl_map]

theorem ParseInt_eq (s : String) : ParseInt s = parseIntBytes (utf8Bytes (String.mk s.data)) := rfl

theorem ParseInt_of_literal (s : String) (n : Int) (h : IsDecimalLiteral s n)
    (hlo : -2 ^ 63 ≤ n) (hhi : n ≤ 2 ^ 63 - 1) : ParseInt s = (n, none) := by
  obtain ⟨ds, hne, hd, hform⟩ := h
  have hbytes := utf8Bytes_digits ds hd
  have hbd : ∀ b ∈ ds.map Char.toNat, 48 ≤ b ∧ b ≤ 57 := by
    intro b hb
    obtain ⟨c, hc, rfl⟩ := List.mem_map.1 hb
    exact hd c hc
  have hbne : ds.map Char.toNat ≠ [] := by simpa using hne
  rw [ParseInt_eq]
  rcases hform with ⟨hs, hn⟩ | ⟨hs, hn⟩ | ⟨hs, hn⟩
  · rw [hs, hbytes]
    obtain ⟨c, cs, rfl⟩ := List.exists_cons_of_ne_nil hne
    have hc := hd c (List.mem_cons_self _ _)
    unfold IsDigit at hc
    have := parseIntBytes_digits c.toNat (cs.map Char.toNat) ((c :: cs).map Char.toNat)
      (by rw [if_neg (by omega), if_neg (by omega)]; rfl) hbne hbd
    rw [List.map_cons, this, if_neg (by omega), byteValue_map, ← hn]
    rw [if_pos (by omega)]
  · rw [hs, utf8Bytes_cons, hbytes]
    have := parseIntBytes_digits 43 (ds.map Char.toNat) (ds.map Char.toNat)
      (by rw [if_pos rfl]) hbne hbd
    have e : utf8Encode ('+' : Char).toNat = [43] := by decide
    rw [e, List.singleton_append, this, if_neg (by omega), byteValue_map, ← hn]
    rw [if_pos (by omega)]
  · rw [hs, utf8Bytes_cons, hbytes]
    have := parseIntBytes_digits 45 (ds.map Char.toNat) (ds.map Char.toNat)
      (by rw [if_neg (by omega), if_pos rfl]) hbne hbd
    have e : utf8Encode ('-' : Char).toNat = [45] := by decide
    rw [e, List.singleton_append, this, if_pos rfl, byteValue_map]
    rw [if_pos (by omega), ← hn]

theorem literal_of_ParseInt (s : String) (h : (ParseInt s).2 = none) :
    IsDecimalLiteral s (ParseInt s).1 ∧ -2 ^ 63 ≤ (ParseInt s).1 ∧ (ParseInt s).1 ≤ 2 ^ 63 - 1 := by
  rw [ParseInt_eq] at h ⊢
  rcases hl : s.data with _ | ⟨c, cs⟩
  · have e : (parseIntBytes (utf8Bytes (String.mk []))).2 = some .ErrSyntax := rfl
    rw [hl, e] at h; cases h
  rw [hl] at h
  -- the rest once a sign is taken off, as characters
  by_cases hsign : c.toNat = 43 ∨ c.toNat = 45
  · have hasc : utf8Encode c.toNat = [c.toNat] := utf8Encode_ascii _ (by omega)
    rw [utf8Bytes_cons, hasc, List.singleton_append] at h ⊢
    have hrest : utf8Bytes (String.mk cs) =
        if c.toNat = 43 then utf8Bytes (String.mk cs)
        else if c.toNat = 45 then utf8Bytes (String.mk cs)
        else c.toNat :: utf8Bytes (String.mk cs) := by
      rcases hsign with h1 | h1
      · rw [if_pos h1]
      · rw [if_neg (by omega), if_pos h1]
    by_cases hgood : utf8Bytes (String.mk cs) ≠ [] ∧
        ∀ b ∈ utf8Bytes (String.mk cs), 48 ≤ b ∧ b ≤ 57
    · have hd := digits_of_utf8Bytes cs hgood.2
      have hb := utf8Bytes_digits cs hd
      have hcs : cs ≠ [] := by
        intro e; apply hgood.1; rw [e]; rfl
      have key := parseIntBytes_digits c.toNat _ _ hrest hgood.1 hgood.2
      rw [hb, byteValue_map] at key
      rw [hb] at h ⊢
      rw [key] at h ⊢
      rcases hsign with h1 | h1
      · rw [if_neg (by omega)] at h ⊢
        by_cases hv : decimalValue cs < 2 ^ 63
        · rw [if_pos hv]
          refine ⟨⟨cs, hcs, hd, Or.inr (Or.inl ⟨?_, rfl⟩)⟩, by simp only []; omega,
            by simp only []; omega⟩
          rw [hl, char_eq_of_toNat c 43 h1]
        · rw [if_neg hv] at h; simp at h
      · rw [if_pos h1] at h ⊢
        by_cases hv : decimalValue cs ≤ 2 ^ 63
        · rw [if_pos hv]
          refine ⟨⟨cs, hcs, hd, Or.inr (Or.inr ⟨?_, rfl⟩)⟩, by simp only []; omega,
            by simp only []; omega⟩
          rw [hl, char_eq_of_toNat c 45 h1]
        · rw [if_neg hv] at h; simp at h
    · exfalso
      apply parseIntBytes_bad c.toNat _ _ hrest _ h
      by_cases e : utf8Bytes (String.mk cs) = []
      · exact Or.inl e
      · exact Or.inr (fun hall => hgood ⟨e, hall⟩)
  · -- no sign: every byte is read by ParseUint
    obtain ⟨b0, bt, hb0⟩ := List.exists_cons_of_ne_nil (utf8Encode_ne_nil c.toNat)
    have hb0ns : b0 ≠ 43 ∧ b0 ≠ 45 := by
      by_cases hs : c.toNat < 128
      · rw [utf8Encode_ascii _ hs] at hb0
        injection hb0 with e1 e2
        omega
      · have := utf8Encode_high c.toNat (by omega) b0 (by rw [hb0]; simp)
        omega
    have hall : utf8Bytes (String.mk (c :: cs)) = b0 :: (bt ++ utf8Bytes (String.mk cs)) := by
      rw [utf8Bytes_cons, hb0]; rfl
    have hrest : utf8Bytes (String.mk (c :: cs)) =
        if b0 = 43 then bt ++ utf8Bytes (String.mk cs)
        else if b0 = 45 then bt ++ utf8Bytes (String.mk cs)
        else b0 :: (bt ++ utf8Bytes (String.mk cs)) := by
      rw [if_neg hb0ns.1, if_neg hb0ns.2, hall]
    by_cases hgood : ∀ b ∈ utf8Bytes (String.mk (c :: cs)), 48 ≤ b ∧ b ≤ 57
    · have hd := digits_of_utf8Bytes (c :: cs) hgood
      have hb := utf8Bytes_digits (c :: cs) hd
      have hne : utf8Bytes (String.mk (c :: cs)) ≠ [] := by rw [hall]; simp
      have key := parseIntBytes_digits b0 _ _ hrest hne hgood
      rw [← hall] at key
      rw [key] at h ⊢
      rw [if_neg hb0ns.2] at h ⊢
      rw [hb, byteValue_map] at h ⊢
      by_cases hv : decimalValue (c :: cs) < 2 ^ 63
      · rw [if_pos hv]
        exact ⟨⟨c :: cs, by simp, hd, Or.inl ⟨hl, rfl⟩⟩, by simp only []; omega,
          by simp only []; omega⟩
      · rw [if_neg hv] at h; simp at h
    · exfalso
      rw [hall] at h
      exact parseIntBytes_bad b0 _ _ hrest (Or.inr hgood) h

/-! ## Sprintf writes the decimal string -/

theorem decimalValue_append (l : List Char) (c : Char) :
    decimalValue (l ++ [c]) = 10 * decimalValue l + (c.toNat - 48) := by
  simp [decimalValue, decimalValueFrom, List.foldl_append]

theorem fmtDigits_spec (fuel u : Nat) (hfuel : 0 < fuel) (hu : u < 10 ^ fuel) :
    fmtDigits fuel u ≠ [] ∧ (∀ c ∈ fmtDigits fuel u, IsDigit c) ∧
      decimalValue (fmtDigits fuel u) = u ∧
      (u = 0 → fmtDigits fuel u = ['0']) ∧
      (u ≠ 0 → (fmtDigits fuel u).head? ≠ some '0') := by
  induction fuel generalizing u with
  | zero => omega
  | succ fuel ih =>
    unfold fmtDigits
    by_cases h10 : u ≥ 10
    · rw [if_pos h10]
      have hf : 0 < fuel := by
        rcases Nat.eq_zero_or_pos fuel with h | h
        · subst h; simp at hu; omega
        · exact h
      have hu10 : u / 10 < 10 ^ fuel := by
        rw [pow_succ] at hu
        exact Nat.div_lt_of_lt_mul (by omega)
      obtain ⟨h1, h2, h3, _, h5⟩ := ih (u / 10) hf hu10
      have hlast : (Char.ofNat (48 + u - u / 10 * 10)).toNat = 48 + u - u / 10 * 10 :=
        char_ofNat_toNat_small _ (by omega)
      refine ⟨by simp, ?_, ?_, by omega, ?_⟩
      · intro c hc
        rcases List.mem_append.1 hc with hc | hc
        · exact h2 c hc
        · rw [List.mem_singleton.1 hc]; unfold IsDigit; rw [hlast]; omega
      · rw [decimalValue_append, h3, hlast]; omega
      · intro _
        obtain ⟨x, xs, hx⟩ := List.exists_cons_of_ne_nil h1
        have := h5 (by omega)
        rw [hx] at this ⊢
        simpa using this
    · rw [if_neg h10]
      have hlast : (Char.ofNat (48 + u)).toNat = 48 + u := char_ofNat_toNat_small _ (by omega)
      refine ⟨by simp, ?_, ?_, ?_, ?_⟩
      · intro c hc
        rw [List.mem_singleton.1 hc]; unfold IsDigit; rw [hlast]; omega
      · simp [decimalValue, decimalValueFrom, hlast]
      · intro h0; subst h0; rfl
      · intro h0 hh
        simp only [List.head?_cons, Option.some.injEq] at hh
        have := congrArg Char.toNat hh
        rw [hlast] at this
        have e : ('0' : Char).toNat = 48 := by decide
        omega

theorem Sprintf_canonical (n : Int) (hlo : -2 ^ 63 ≤ n) (hhi : n ≤ 2 ^ 63 - 1) :
    IsCanonicalDecimal (Sprintf n) n := by
  unfold Sprintf
  by_cases hneg : n < 0
  · simp only [hneg, decide_True, if_true]
    have hu : (2 ^ 64 - (n % 2 ^ 64).toNat) % 2 ^ 64 = (-n).toNat := by omega
    rw [hu]
    obtain ⟨h1, h2, h3, h4, h5⟩ := fmtDigits_spec 20 (-n).toNat (by norm_num) (by norm_num; omega)
    refine ⟨_, h1, h2, ?_, Or.inr ⟨hneg, rfl, ?_⟩⟩
    · exact Or.inr (h5 (by omega))
    · rw [h3]; omega
  · simp only [hneg, decide_False, if_false, Bool.false_eq_true, List.nil_append]
    have hu : (n % 2 ^ 64).toNat = n.toNat := by omega
    rw [hu]
    obtain ⟨h1, h2, h3, h4, h5⟩ := fmtDigits_spec 20 n.toNat (by norm_num) (by norm_num; omega)
    refine ⟨_, h1, h2, ?_, Or.inl ⟨by omega, rfl, ?_⟩⟩
    · by_cases h0 : n.toNat = 0
      · exact Or.inl (h4 h0)
      · exact Or.inr (h5 h0)
    · rw [h3]; omega

/-! ## Headers, query values, white space -/

theorem canonical_XPublic : CanonicalMIMEHeaderKey headerXPublic = headerXPublic := by decide

theorem canonical_XClientId : CanonicalMIMEHeaderKey headerXClientId = headerXClientId := by
  decide

theorem canonical_XCallerId : CanonicalMIMEHeaderKey headerXCallerId = headerXCallerId := by
  decide

theorem client_ne_caller : headerXClientId ≠ headerXCallerId := by decide

theorem Header_Get_eq (h : Header) (key : String)
    (hk : CanonicalMIMEHeaderKey key = key) :
    Header.Get h key = (firstOf (Header.lookup h key)).getD "" := by
  unfold Header.Get firstOf
  rw [hk]
  rcases Header.lookup h key with _ | _ | ⟨v, vs⟩ <;> rfl

/-- The header map of a request after `clearRequest`. -/
theorem clearRequest_some (r : Request) :
    clearRequest (some r) =
      some { Header := (r.Header.Del headerXClientId).Del headerXCallerId, URL := r.URL } := rfl

theorem lookup_cleared (h : Header) :
    Header.lookup ((Header.Del h headerXClientId).Del headerXCallerId) headerXClientId = none ∧
    Header.lookup ((Header.Del h headerXClientId).Del headerXCallerId) headerXCallerId = none := by
  cases h with
  | none => exact ⟨rfl, rfl⟩
  | some m =>
    simp only [Header.Del, Header.lookup, canonical_XClientId, canonical_XCallerId]
    simp [client_ne_caller]

theorem lookup_cleared_other (h : Header) (k : String) (h1 : k ≠ headerXClientId)
    (h2 : k ≠ headerXCallerId) :
    Header.lookup ((Header.Del h headerXClientId).Del headerXCallerId) k = Header.lookup h k := by
  cases h with
  | none => rfl
  | some m =>
    simp only [Header.Del, Header.lookup, canonical_XClientId, canonical_XCallerId]
    simp [h1, h2]

theorem cleared_congr (h1 h2 : ValuesMap)
    (h : ∀ k, k ≠ headerXClientId → k ≠ headerXCallerId → h1 k = h2 k) :
    (Header.Del (some h1) headerXClientId).Del headerXCallerId =
      (Header.Del (some h2) headerXClientId).Del headerXCallerId := by
  simp only [Header.Del, canonical_XClientId, canonical_XCallerId]
  congr 1
  funext k
  by_cases hk2 : k = headerXCallerId
  · simp [hk2]
  · by_cases hk1 : k = headerXClientId
    · simp [hk1, hk2]
    · simp [hk1, hk2, h k hk1 hk2]

theorem dropWhile_eq_nil_iff {α : Type} (p : α → Bool) (l : List α) :
    l.dropWhile p = [] ↔ ∀ x ∈ l, p x = true := by
  induction l with
  | nil => simp
  | cons a l ih =>
    by_cases h : p a = true
    · simp [List.dropWhile_cons, h, ih]
    · simp [List.dropWhile_cons, h]

theorem TrimSpace_eq_empty_iff (s : String) : TrimSpace s = "" ↔ IsBlank s := by
  unfold TrimSpace IsBlank
  constructor
  · intro h
    have h1 : ((s.data.dropWhile fun c => IsSpace c.toNat).reverse.dropWhile
        fun c => IsSpace c.toNat).reverse = [] := by
      have := congrArg String.data h
      exact this
    rw [List.reverse_eq_nil_iff, dropWhile_eq_nil_iff] at h1
    -- the remainder after the leading white space is empty or starts with a non-space
    rcases hd : s.data.dropWhile (fun c => IsSpace c.toNat) with _ | ⟨x, xs⟩
    · exact (dropWhile_eq_nil_iff _ _).1 hd
    · exfalso
      have hx : IsSpace x.toNat = true := h1 x (by rw [hd]; simp)
      have := List.head_dropWhile_not (fun c => IsSpace c.toNat) s.data (by rw [hd]; simp)
      simp only [hd, List.head_cons] at this
      rw [hx] at this
      cases this
  · intro h
    have : s.data.dropWhile (fun c => IsSpace c.toNat) = [] := (dropWhile_eq_nil_iff _ _).2 h
    rw [this]
    rfl

theorem Values_Get_eq (v : ValuesMap) (key : String) :
    Values.Get v key = (firstOf (v key)).getD "" := by
  unfold Values.Get firstOf
  rcases v key with _ | _ | ⟨x, xs⟩ <;> rfl

theorem IsBlank_empty : IsBlank "" := by
  intro c hc; cases hc

theorem trim_of_blank (r : Request) (h : BlankAccessToken r) :
    ∃ u, r.URL = some u ∧ TrimSpace (Values.Get u.Query paramAccessToken) = "" := by
  obtain ⟨u, hu, hv⟩ := h
  refine ⟨u, hu, ?_⟩
  rw [TrimSpace_eq_empty_iff, Values_Get_eq]
  rcases hv with hv | ⟨v, hv, hb⟩
  · rw [hv]; exact IsBlank_empty
  · rw [hv]; exact hb

theorem trim_of_nonblank (r : Request) (v : String) (h : NonBlankAccessToken r v) :
    ∃ u, r.URL = some u ∧ Values.Get u.Query paramAccessToken = v ∧ TrimSpace v ≠ "" := by
  obtain ⟨u, hu, hv, hb⟩ := h
  refine ⟨u, hu, ?_, ?_⟩
  · rw [Values_Get_eq, hv]; rfl
  · rw [Ne, TrimSpace_eq_empty_iff]; exact hb

/-! ## The paths through AuthenticateRequest -/

/-- The trace of `getAccessToken`: one request, carrying the token id it was given. -/
theorem getAccessToken_sent (client : Transport) (accessTokenId : String) :
    (getAccessToken client accessTokenId).2 =
      [{ accessTokenId := accessTokenId, url := requestURL accessTokenId }] := by
  unfold getAccessToken restyGet
  rcases client (requestURL accessTokenId) with t | ⟨code, a, e⟩ <;> rfl

theorem getAccessToken_eq (client : Transport) (accessTokenId : String)
    (p : Option accessToken × Option RestErr) (h : (getAccessToken client accessTokenId).1 = p) :
    getAccessToken client accessTokenId =
      (p, [{ accessTokenId := accessTokenId, url := requestURL accessTokenId }]) :=
  Prod.ext h (getAccessToken_sent client accessTokenId)

theorem AuthenticateRequest_congr (client : Transport) (r1 r2 : Request)
    (h : clearRequest (some r1) = clearRequest (some r2)) :
    AuthenticateRequest client (some r1) = AuthenticateRequest client (some r2) := by
  unfold AuthenticateRequest
  simp only [h]

theorem AuthenticateRequest_blank (client : Transport) (r : Request) (u : URL)
    (hu : r.URL = some u) (ht : TrimSpace (Values.Get u.Query paramAccessToken) = "") :
    AuthenticateRequest client (some r) =
      { result := .ok none, request := clearRequest (some r), lookups := [] } := by
  unfold AuthenticateRequest
  simp only [clearRequest_some, hu, ht, if_true]

theorem AuthenticateRequest_error (client : Transport) (r : Request) (u : URL)
    (hu : r.URL = some u) (ht : TrimSpace (Values.Get u.Query paramAccessToken) ≠ "")
    (x : Option accessToken) (e : RestErr)
    (hl : (getAccessToken client (TrimSpace (Values.Get u.Query paramAccessToken))).1 =
      (x, some e)) :
    AuthenticateRequest client (some r) =
      { result := if e.Status = StatusNotFound then .ok none else .ok (some e),
        request := clearRequest (some r),
        lookups := [{ accessTokenId := TrimSpace (Values.Get u.Query paramAccessToken),
                      url := requestURL (TrimSpace (Values.Get u.Query paramAccessToken)) }] } := by
  have hp := getAccessToken_eq client _ _ hl
  unfold AuthenticateRequest
  simp only [clearRequest_some, hu, if_neg ht, hp]
  split_ifs <;> rfl

theorem AuthenticateRequest_success (client : Transport) (r : Request) (u : URL)
    (hu : r.URL = some u) (ht : TrimSpace (Values.Get u.Query paramAccessToken) ≠ "")
    (a : accessToken)
    (hl : (getAccessToken client (TrimSpace (Values.Get u.Query paramAccessToken))).1 =
      (some a, none)) :
    AuthenticateRequest client (some r) =
      match (r.Header.Del headerXClientId).Del headerXCallerId with
      | none =>
        { result := .error .assignmentToEntryInNilMap, request := clearRequest (some r),
          lookups := [{ accessTokenId := TrimSpace (Values.Get u.Query paramAccessToken),
                        url := requestURL (TrimSpace (Values.Get u.Query paramAccessToken)) }] }
      | some m =>
        { result := .ok none,
          request := some
            { Header := some fun k =>
                if k = headerXCallerId then some [Sprintf a.UserId]
                else if k = headerXClientId then some [Sprintf a.ClientId]
                else m k,
              URL := r.URL },
          lookups := [{ accessTokenId := TrimSpace (Values.Get u.Query paramAccessToken),
                        url := requestURL (TrimSpace (Values.Get u.Query paramAccessToken)) }] } := by
  have hp := getAccessToken_eq client _ _ hl
  unfold AuthenticateRequest
  simp only [clearRequest_some, hu, if_neg ht, hp]
  rcases hh : r.Header with _ | m
  · rfl
  · simp only [Header.Del, Header.Add, canonical_XClientId, canonical_XCallerId]
    rfl

/-! ## Reading an identity header -/

/-- What `GetCallerId` and `GetClientId` compute from the header they read. -/
theorem parsed_header_spec (r : Request) (key : String)
    (hk : CanonicalMIMEHeaderKey key = key) :
    (∀ n, HoldsIdentity (some r) key n → ParseInt (r.Header.Get key) = (n, none)) ∧
      ((¬ ∃ n, HoldsIdentity (some r) key n) → (ParseInt (r.Header.Get key)).2 ≠ none) := by
  constructor
  · rintro n ⟨r', s, hr, hs, hlit, hlo, hhi⟩
    cases hr
    rw [Header_Get_eq _ _ hk, hs]
    exact ParseInt_of_literal s n hlit hlo hhi
  · intro hno hnone
    apply hno
    obtain ⟨hlit, hlo, hhi⟩ := literal_of_ParseInt _ hnone
    refine ⟨_, r, r.Header.Get key, rfl, ?_, hlit, hlo, hhi⟩
    rw [Header_Get_eq _ _ hk] at hnone ⊢
    rcases hf : firstOf (Header.lookup r.Header key) with _ | s
    · rw [hf] at hnone
      exact absurd hnone (by decide)
    · rfl

theorem not_HoldsIdentity_nil (key : String) (n : Int) : ¬ HoldsIdentity none key n := by
  rintro ⟨r, s, hr, _⟩
  cases hr

theorem plus_not_digit : ¬ IsDigit '+' := by decide

theorem minus_not_digit : ¬ IsDigit '-' := by decide

/-- A string denotes at most one number. -/
theorem IsDecimalLiteral_unique (s : String) (n m : Int) (hn : IsDecimalLiteral s n)
    (hm : IsDecimalLiteral s m) : n = m := by
  obtain ⟨ds, _, hd, h⟩ := hn
  obtain ⟨es, _, he, h'⟩ := hm
  have hp : ∀ l : List Char, (∀ c ∈ l, IsDigit c) → ∀ t, l = '+' :: t → False :=
    fun l hl t e => plus_not_digit (hl _ (by rw [e]; exact List.mem_cons_self _ _))
  have hq : ∀ l : List Char, (∀ c ∈ l, IsDigit c) → ∀ t, l = '-' :: t → False :=
    fun l hl t e => minus_not_digit (hl _ (by rw [e]; exact List.mem_cons_self _ _))
  rcases h with ⟨a, b⟩ | ⟨a, b⟩ | ⟨a, b⟩ <;> rcases h' with ⟨a', b'⟩ | ⟨a', b'⟩ | ⟨a', b'⟩ <;>
    rw [a] at a'
  · rw [b, b', a']
  · exact (hp ds hd es a').elim
  · exact (hq ds hd es a').elim
  · exact (hp es he ds a'.symm).elim
  · rw [b, b', List.cons.inj a' |>.2]
  · exact absurd (List.cons.inj a').1 (by decide)
  · exact (hq es he ds a'.symm).elim
  · exact absurd (List.cons.inj a').1 (by decide)
  · rw [b, b', List.cons.inj a' |>.2]

/-- A first value that denotes a number outside the 64-bit range carries no identity. -/
theorem not_HoldsIdentity_of_out_of_range (r : Request) (key s : String) (n : Int)
    (hs : firstOf (Header.lookup r.Header key) = some s) (hlit : IsDecimalLiteral s n)
    (hout : n < -2 ^ 63 ∨ 2 ^ 63 - 1 < n) : ¬ ∃ m, HoldsIdentity (some r) key m := by
  rintro ⟨m, r', s', hr, hs', hlit', hlo, hhi⟩
  cases hr
  rw [hs] at hs'
  cases hs'
  have := IsDecimalLiteral_unique s n m hlit hlit'
  omega

/-! ## Round trip, trimming, and what a run leaves of the request -/

theorem literal_of_canonical (s : String) (n : Int) (h : IsCanonicalDecimal s n) :
    IsDecimalLiteral s n := by
  obtain ⟨ds, hne, hd, _, h⟩ := h
  rcases h with ⟨_, hs, hn⟩ | ⟨_, hs, hn⟩
  · exact ⟨ds, hne, hd, Or.inl ⟨hs, hn⟩⟩
  · exact ⟨ds, hne, hd, Or.inr (Or.inr ⟨hs, hn⟩)⟩

/-- Reading back what `Sprintf` wrote gives the number again. -/
theorem ParseInt_Sprintf (n : Int) (hlo : -2 ^ 63 ≤ n) (hhi : n ≤ 2 ^ 63 - 1) :
    ParseInt (Sprintf n) = (n, none) :=
  ParseInt_of_literal _ n (literal_of_canonical _ n (Sprintf_canonical n hlo hhi)) hlo hhi

/-- The two shapes of what `getAccessToken` returns: an error and no token, or a token and no
error. -/
theorem getAccessToken_cases (client : Transport) (accessTokenId : String) :
    (∃ e, (getAccessToken client accessTokenId).1 = (none, some e)) ∨
      ∃ a, (getAccessToken client accessTokenId).1 = (some a, none) := by
  unfold getAccessToken restyGet
  rcases client (requestURL accessTokenId) with t | ⟨code, a, e⟩
  · exact Or.inl ⟨_, rfl⟩
  · by_cases h : code > 399
    · exact Or.inl ⟨e, by simp [h]⟩
    · exact Or.inr ⟨a, by simp [h]⟩

theorem AuthenticateRequest_no_url (client : Transport) (r : Request) (hu : r.URL = none) :
    AuthenticateRequest client (some r) =
      { result := .error .nilPointerDereference, request := clearRequest (some r),
        lookups := [] } := by
  unfold AuthenticateRequest
  simp only [clearRequest_some, hu]

theorem head?_dropWhile_false {α : Type} (p : α → Bool) (l : List α) (c : α)
    (h : (l.dropWhile p).head? = some c) : p c = false := by
  induction l with
  | nil => simp at h
  | cons a l ih =>
    by_cases ha : p a = true
    · rw [List.dropWhile_cons, if_pos ha] at h
      exact ih h
    · rw [List.dropWhile_cons, if_neg ha] at h
      simp only [List.head?_cons, Option.some.injEq] at h
      subst h
      simpa using ha

theorem head?_append_left {α : Type} (l r : List α) (c : α) (h : l.head? = some c) :
    (l ++ r).head? = some c := by
  cases l with
  | nil => simp at h
  | cons a l => simpa using h

theorem TrimSpace_spec (v : String) : IsTrimOf (TrimSpace v) v := by
  let p : Char → Bool := fun c => IsSpace c.toNat
  have hb : v.data.dropWhile p =
      ((v.data.dropWhile p).reverse.dropWhile p).reverse ++
        ((v.data.dropWhile p).reverse.takeWhile p).reverse := by
    rw [← List.reverse_append, List.takeWhile_append_dropWhile, List.reverse_reverse]
  refine ⟨v.data.takeWhile p, ((v.data.dropWhile p).reverse.takeWhile p).reverse, ?_, ?_, ?_,
    ?_, ?_⟩
  · show v.data = v.data.takeWhile p ++
      ((v.data.dropWhile p).reverse.dropWhile p).reverse ++ _
    rw [List.append_assoc, ← hb, List.takeWhile_append_dropWhile]
  · intro c hc
    have h : p c = true := List.mem_takeWhile_imp hc
    exact h
  · intro c hc
    rw [List.mem_reverse] at hc
    have h : p c = true := List.mem_takeWhile_imp hc
    exact h
  · intro c hc
    have hc' : (((v.data.dropWhile p).reverse.dropWhile p).reverse).head? = some c := hc
    have := head?_append_left _ ((v.data.dropWhile p).reverse.takeWhile p).reverse c hc'
    rw [← hb] at this
    exact head?_dropWhile_false p _ c this
  · intro c hc
    have hc' : (((v.data.dropWhile p).reverse.dropWhile p).reverse).getLast? = some c := hc
    rw [List.getLast?_reverse] at hc'
    exact head?_dropWhile_false p _ c hc'

theorem nonblank_of_trim (r : Request) (u : URL) (hu : r.URL = some u)
    (ht : TrimSpace (Values.Get u.Query paramAccessToken) ≠ "") :
    NonBlankAccessToken r (Values.Get u.Query paramAccessToken) := by
  refine ⟨u, hu, ?_, fun hb => ht ((TrimSpace_eq_empty_iff _).2 hb)⟩
  rw [Values_Get_eq] at ht ⊢
  rcases hf : firstOf (u.Query paramAccessToken) with _ | s
  · rw [hf] at ht
    exact absurd ((TrimSpace_eq_empty_iff _).2 IsBlank_empty) ht
  · rfl

/-- The request after a run: as `clearRequest` leaves it, or, on the one path that returns
after a successful lookup, with one value written under each identity header. -/
theorem AuthenticateRequest_request (client : Transport) (r : Request) :
    (AuthenticateRequest client (some r)).request = clearRequest (some r) ∨
      ∃ (m : ValuesMap) (a : accessToken), (r.Header.Del headerXClientId).Del headerXCallerId = some m ∧
        (AuthenticateRequest client (some r)).result = .ok none ∧
        (AuthenticateRequest client (some r)).request = some
          { Header := some fun k =>
              if k = headerXCallerId then some [Sprintf a.UserId]
              else if k = headerXClientId then some [Sprintf a.ClientId]
              else m k,
            URL := r.URL } := by
  rcases hu : r.URL with _ | u
  · left; rw [AuthenticateRequest_no_url client r hu]
  · by_cases ht : TrimSpace (Values.Get u.Query paramAccessToken) = ""
    · left; rw [AuthenticateRequest_blank client r u hu ht]
    · rcases getAccessToken_cases client (TrimSpace (Values.Get u.Query paramAccessToken))
        with ⟨e, he⟩ | ⟨a, ha⟩
      · left; rw [AuthenticateRequest_error client r u hu ht none e he]
      · rw [AuthenticateRequest_success client r u hu ht a ha]
        rcases hm : (r.Header.Del headerXClientId).Del headerXCallerId with _ | m
        · left; rfl
        · right; exact ⟨m, a, rfl, rfl, by rw [← hu]⟩

/-- A run that returns an error value leaves the request as `clearRequest` left it. -/
theorem AuthenticateRequest_request_of_error (client : Transport) (r : Request) (e : RestErr)
    (h : (AuthenticateRequest client (some r)).result = .ok (some e)) :
    (AuthenticateRequest client (some r)).request = clearRequest (some r) := by
  rcases AuthenticateRequest_request client r with h1 | ⟨m, a, _, h2, _⟩
  · exact h1
  · rw [h2] at h
    cases h

theorem Del_eq_none_iff (h : Header) :
    (Header.Del h headerXClientId).Del headerXCallerId = none ↔ h = none := by
  cases h with
  | none => exact ⟨fun _ => rfl, fun _ => rfl⟩
  | some m => exact ⟨fun e => Option.noConfusion e, fun e => Option.noConfusion e⟩

/-- Keys other than the two identity headers read the same after a run as before it. -/
theorem AuthenticateRequest_frame (client : Transport) (r : Request) :
    ∃ r', (AuthenticateRequest client (some r)).request = some r' ∧ r'.URL = r.URL ∧
      (r'.Header = none ↔ r.Header = none) ∧
      ∀ k, k ≠ headerXClientId → k ≠ headerXCallerId →
        Header.lookup r'.Header k = Header.lookup r.Header k := by
  rcases AuthenticateRequest_request client r with h1 | ⟨m, a, hm, _, h2⟩
  · rw [h1, clearRequest_some]
    exact ⟨_, rfl, rfl, Del_eq_none_iff r.Header,
      fun k hk1 hk2 => lookup_cleared_other r.Header k hk1 hk2⟩
  · rw [h2]
    refine ⟨_, rfl, rfl, ⟨fun e => Option.noConfusion e, fun e => ?_⟩, fun k hk1 hk2 => ?_⟩
    · rw [(Del_eq_none_iff r.Header).2 e] at hm; cases hm
    · rw [← lookup_cleared_other r.Header k hk1 hk2, hm]
      simp [Header.lookup, hk1, hk2]

theorem IsPublic_congr (r r' : Request)
    (h : Header.lookup r'.Header headerXPublic = Header.lookup r.Header headerXPublic) :
    IsPublic (some r') = IsPublic (some r) := by
  simp only [IsPublic, Header_Get_eq _ _ canonical_XPublic, h]

theorem public_ne_identity : headerXPublic ≠ headerXClientId ∧ headerXPublic ≠ headerXCallerId := by
  decide

/-! ## The claims -/

/-- C1 (anti-spoofing). Two non-nil requests that differ at most in the values pre-set under
`X-Client-Id` and `X-Caller-Id`, authenticated against the same service, end the same way:
same returned error (or panic), same request and header state afterwards, same lookups. -/
theorem authenticate_forgets_preset_identity (client : Transport) (r1 r2 : Request)
    (h : SameButIdentityHeaders r1 r2) :
    (AuthenticateRequest client (some r1)).result =
        (AuthenticateRequest client (some r2)).result ∧
      (AuthenticateRequest client (some r1)).request =
        (AuthenticateRequest client (some r2)).request ∧
      (AuthenticateRequest client (some r1)).lookups =
        (AuthenticateRequest client (some r2)).lookups := by
  have hc : clearRequest (some r1) = clearRequest (some r2) := by
    obtain ⟨hu, hh⟩ := h
    rw [clearRequest_some, clearRequest_some, hu]
    rcases h1 : r1.Header with _ | m1 <;> rcases h2 : r2.Header with _ | m2 <;>
      simp only [h1, h2] at hh
    · rfl
    · rw [cleared_congr m1 m2 hh]
  rw [AuthenticateRequest_congr client r1 r2 hc]
  exact ⟨rfl, rfl, rfl⟩

/-- Witness for C1: a request with forged identity headers and the same request without them,
both resolved by a service that knows the token. -/
theorem authenticate_forgets_preset_identity_witness :
    SameButIdentityHeaders spoofedRequestWithToken requestWithToken ∧
      ((AuthenticateRequest serviceFound (some spoofedRequestWithToken)).result =
          (AuthenticateRequest serviceFound (some requestWithToken)).result ∧
        (AuthenticateRequest serviceFound (some spoofedRequestWithToken)).request =
          (AuthenticateRequest serviceFound (some requestWithToken)).request ∧
        (AuthenticateRequest serviceFound (some spoofedRequestWithToken)).lookups =
          (AuthenticateRequest serviceFound (some requestWithToken)).lookups) :=
  have h : SameButIdentityHeaders spoofedRequestWithToken requestWithToken :=
    ⟨rfl, fun k h1 h2 => by simp [emptyMap, h1, h2]⟩
  ⟨h, authenticate_forgets_preset_identity serviceFound _ _ h⟩

/-- C2, as stated, fails on a request whose header map is nil: for `http.Request{URL: u}` with
`access_token=test` and a lookup that succeeds with user id 234 and client id 345, the call
does not return. `Header.Add` writes to the nil map and panics, and no header is set. -/
theorem authenticate_success_nil_header_map_panics :
    NonBlankAccessToken requestWithoutHeader "test" ∧
      (getAccessToken serviceFound (TrimSpace "test")).1 =
        (some { Id := "test", UserId := 234, ClientId := 345 }, none) ∧
      (AuthenticateRequest serviceFound (some requestWithoutHeader)).result =
        .error .assignmentToEntryInNilMap ∧
      IdentityHeadersAbsent (AuthenticateRequest serviceFound (some requestWithoutHeader)).request :=
  ⟨⟨_, rfl, rfl, by decide⟩, rfl, rfl, _, rfl, rfl, rfl⟩

/-- C2, amended: for every non-nil request with an initialised header map and a non-blank
`access_token`, if the token lookup succeeds with client id `c` and user id `u` (64-bit
signed), `AuthenticateRequest` returns no error, and afterwards `X-Client-Id` holds exactly one
value, the decimal string of `c`, and `X-Caller-Id` exactly one value, the decimal string of
`u`, whatever the two headers carried before. -/
theorem authenticate_success_writes_identity (client : Transport) (r : Request) (m : ValuesMap)
    (v : String) (a : accessToken) (hm : r.Header = some m) (hv : NonBlankAccessToken r v)
    (hl : (getAccessToken client (TrimSpace v)).1 = (some a, none))
    (hc : -2 ^ 63 ≤ a.ClientId ∧ a.ClientId ≤ 2 ^ 63 - 1)
    (hu : -2 ^ 63 ≤ a.UserId ∧ a.UserId ≤ 2 ^ 63 - 1) :
    (AuthenticateRequest client (some r)).result = .ok none ∧
      ∃ r', (AuthenticateRequest client (some r)).request = some r' ∧
        Header.lookup r'.Header headerXClientId = some [Sprintf a.ClientId] ∧
        IsCanonicalDecimal (Sprintf a.ClientId) a.ClientId ∧
        Header.lookup r'.Header headerXCallerId = some [Sprintf a.UserId] ∧
        IsCanonicalDecimal (Sprintf a.UserId) a.UserId := by
  obtain ⟨u, hu', hget, hne⟩ := trim_of_nonblank r v hv
  rw [AuthenticateRequest_success client r u hu' (by rw [hget]; exact hne) a
    (by rw [hget]; exact hl), hm]
  refine ⟨rfl, _, rfl, ?_, Sprintf_canonical _ hc.1 hc.2, ?_, Sprintf_canonical _ hu.1 hu.2⟩
  · simp [Header.lookup, client_ne_caller]
  · simp [Header.lookup]

/-- Witness for C2: the request of the tests with forged identity headers, user id 234 and
client id 345; the headers end as `"345"` and `"234"`. -/
theorem authenticate_success_writes_identity_witness :
    (spoofedRequestWithToken.Header = some (fun k =>
        if k = headerXClientId then some ["1", "2"]
        else if k = headerXCallerId then some ["9"]
        else none) ∧
      NonBlankAccessToken spoofedRequestWithToken "test" ∧
      (getAccessToken serviceFound (TrimSpace "test")).1 =
        (some { Id := "test", UserId := 234, ClientId := 345 }, none)) ∧
    ((AuthenticateRequest serviceFound (some spoofedRequestWithToken)).result = .ok none ∧
      ∃ r', (AuthenticateRequest serviceFound (some spoofedRequestWithToken)).request = some r' ∧
        Header.lookup r'.Header headerXClientId = some [Sprintf 345] ∧
        IsCanonicalDecimal (Sprintf 345) 345 ∧
        Header.lookup r'.Header headerXCallerId = some [Sprintf 234] ∧
        IsCanonicalDecimal (Sprintf 234) 234) ∧
    (Sprintf 345 = "345" ∧ Sprintf 234 = "234") :=
  ⟨⟨rfl, ⟨_, rfl, rfl, by decide⟩, rfl⟩,
    authenticate_success_writes_identity serviceFound spoofedRequestWithToken _ "test"
      { Id := "test", UserId := 234, ClientId := 345 } rfl ⟨_, rfl, rfl, by decide⟩ rfl
      (by decide) (by decide),
    by decide, by decide⟩

/-- C3, as stated, fails: the decision is taken on the `Status` field decoded from the error
body, not on the HTTP status code. A service answering HTTP 404 with the body of a bad-request
error makes `AuthenticateRequest` return that error, while HTTP 404 with a not-found body, and
also HTTP 400 with a not-found body, are absorbed. -/
theorem authenticate_http_404_decided_by_body :
    NonBlankAccessToken requestWithToken "test" ∧
      (AuthenticateRequest
          (serviceError 404 { Message := "bad request", Status := 400, Causes := [] })
          (some requestWithToken)).result =
        .ok (some { Message := "bad request", Status := 400, Causes := [] }) ∧
      (AuthenticateRequest
          (serviceError 404 { Message := "not found", Status := 404, Causes := [] })
          (some requestWithToken)).result = .ok none ∧
      (AuthenticateRequest
          (serviceError 400 { Message := "not found", Status := 404, Causes := [] })
          (some requestWithToken)).result = .ok none :=
  ⟨⟨_, rfl, rfl, by decide⟩, rfl, rfl, rfl⟩

/-- C3, amended (fail-open on not-found): for every non-nil request with a non-blank
`access_token`, if the token lookup fails with an error value whose `Status` field is 404,
`AuthenticateRequest` returns no error and leaves `X-Client-Id` and `X-Caller-Id` absent; the
decision depends on that field alone, whatever the message and causes of the error. -/
theorem authenticate_absorbs_status_404 (client : Transport) (r : Request) (v : String)
    (x : Option accessToken) (e : RestErr) (hv : NonBlankAccessToken r v)
    (hl : (getAccessToken client (TrimSpace v)).1 = (x, some e)) (he : e.Status = 404) :
    (AuthenticateRequest client (some r)).result = .ok none ∧
      IdentityHeadersAbsent (AuthenticateRequest client (some r)).request := by
  obtain ⟨u, hu, hget, hne⟩ := trim_of_nonblank r v hv
  rw [AuthenticateRequest_error client r u hu (by rw [hget]; exact hne) x e
    (by rw [hget]; exact hl)]
  refine ⟨?_, _, clearRequest_some r, (lookup_cleared r.Header).1, (lookup_cleared r.Header).2⟩
  simp only [StatusNotFound, he, if_true]

/-- Witness for C3: the not-found scenario of the tests, on a request with forged identity
headers. -/
theorem authenticate_absorbs_status_404_witness :
    (NonBlankAccessToken spoofedRequestWithToken "test" ∧
      (getAccessToken (serviceError 404 { Message := "not found", Status := 404, Causes := [] })
        (TrimSpace "test")).1 =
        (none, some { Message := "not found", Status := 404, Causes := [] })) ∧
    ((AuthenticateRequest
        (serviceError 404 { Message := "not found", Status := 404, Causes := [] })
        (some spoofedRequestWithToken)).result = .ok none ∧
      IdentityHeadersAbsent (AuthenticateRequest
        (serviceError 404 { Message := "not found", Status := 404, Causes := [] })
        (some spoofedRequestWithToken)).request) :=
  ⟨⟨⟨_, rfl, rfl, by decide⟩, rfl⟩,
    authenticate_absorbs_status_404 _ spoofedRequestWithToken "test" none _
      ⟨_, rfl, rfl, by decide⟩ rfl rfl⟩

/-- C4 (fail-closed on any other rejection): for every non-nil request with a non-blank
`access_token`, if the token lookup fails with an error whose status is not 404,
`AuthenticateRequest` returns that same error value, and `X-Client-Id` and `X-Caller-Id` are
absent after the call. -/
theorem authenticate_returns_other_errors (client : Transport) (r : Request) (v : String)
    (x : Option accessToken) (e : RestErr) (hv : NonBlankAccessToken r v)
    (hl : (getAccessToken client (TrimSpace v)).1 = (x, some e)) (he : e.Status ≠ 404) :
    (AuthenticateRequest client (some r)).result = .ok (some e) ∧
      IdentityHeadersAbsent (AuthenticateRequest client (some r)).request := by
  obtain ⟨u, hu, hget, hne⟩ := trim_of_nonblank r v hv
  rw [AuthenticateRequest_error client r u hu (by rw [hget]; exact hne) x e
    (by rw [hget]; exact hl)]
  refine ⟨?_, _, clearRequest_some r, (lookup_cleared r.Header).1, (lookup_cleared r.Header).2⟩
  simp only [StatusNotFound, he, if_false]

/-- Witness for C4: the bad-request scenario of the tests (status 400, message "bad request"),
on a request with forged identity headers. -/
theorem authenticate_returns_other_errors_witness :
    (NonBlankAccessToken spoofedRequestWithToken "test" ∧
      (getAccessToken (serviceError 400 { Message := "bad request", Status := 400, Causes := [] })
        (TrimSpace "test")).1 =
        (none, some { Message := "bad request", Status := 400, Causes := [] }) ∧
      (400 : Int) ≠ 404) ∧
    ((AuthenticateRequest
        (serviceError 400 { Message := "bad request", Status := 400, Causes := [] })
        (some spoofedRequestWithToken)).result =
        .ok (some { Message := "bad request", Status := 400, Causes := [] }) ∧
      IdentityHeadersAbsent (AuthenticateRequest
        (serviceError 400 { Message := "bad request", Status := 400, Causes := [] })
        (some spoofedRequestWithToken)).request) :=
  ⟨⟨⟨_, rfl, rfl, by decide⟩, rfl, by decide⟩,
    authenticate_returns_other_errors _ spoofedRequestWithToken "test" none _
      ⟨_, rfl, rfl, by decide⟩ rfl (by decide)⟩

/-- C5, as stated, fails on a request without a URL: `http.Request{}` has no `access_token`
parameter, and `AuthenticateRequest` does not return on it. Reading the query of the nil URL
panics, whatever the service would answer. -/
theorem authenticate_without_url_panics :
    emptyRequest.URL = none ∧
      (AuthenticateRequest serviceFound (some emptyRequest)).result =
        .error .nilPointerDereference ∧
      (AuthenticateRequest (serviceDown "connection refused") (some emptyRequest)).result =
        .error .nilPointerDereference :=
  ⟨rfl, rfl, rfl⟩

/-- C5, amended: for every non-nil request that has a URL and whose `access_token` query
parameter is absent, empty or made only of white space, `AuthenticateRequest` returns no error,
makes no token lookup, and leaves `X-Client-Id` and `X-Caller-Id` absent, whatever the caller
had put there. -/
theorem authenticate_blank_token_is_anonymous (client : Transport) (r : Request)
    (h : BlankAccessToken r) :
    (AuthenticateRequest client (some r)).result = .ok none ∧
      (AuthenticateRequest client (some r)).lookups = [] ∧
      IdentityHeadersAbsent (AuthenticateRequest client (some r)).request := by
  obtain ⟨u, hu, ht⟩ := trim_of_blank r h
  rw [AuthenticateRequest_blank client r u hu ht]
  exact ⟨rfl, rfl, _, clearRequest_some r, (lookup_cleared r.Header).1,
    (lookup_cleared r.Header).2⟩

/-- Witness for C5: a request without the parameter and a request whose parameter is white
space, both with forged identity headers, against a service that would resolve any token. -/
theorem authenticate_blank_token_is_anonymous_witness :
    (BlankAccessToken spoofedRequestWithoutToken ∧
      ((AuthenticateRequest serviceFound (some spoofedRequestWithoutToken)).result = .ok none ∧
        (AuthenticateRequest serviceFound (some spoofedRequestWithoutToken)).lookups = [] ∧
        IdentityHeadersAbsent
          (AuthenticateRequest serviceFound (some spoofedRequestWithoutToken)).request)) ∧
    (BlankAccessToken spoofedRequestWithBlankToken ∧
      ((AuthenticateRequest serviceFound (some spoofedRequestWithBlankToken)).result = .ok none ∧
        (AuthenticateRequest serviceFound (some spoofedRequestWithBlankToken)).lookups = [] ∧
        IdentityHeadersAbsent
          (AuthenticateRequest serviceFound (some spoofedRequestWithBlankToken)).request)) :=
  ⟨⟨⟨_, rfl, Or.inl rfl⟩,
      authenticate_blank_token_is_anonymous serviceFound spoofedRequestWithoutToken
        ⟨_, rfl, Or.inl rfl⟩⟩,
    ⟨⟨_, rfl, Or.inr ⟨_, rfl, by decide⟩⟩,
      authenticate_blank_token_is_anonymous serviceFound spoofedRequestWithBlankToken
        ⟨_, rfl, Or.inr ⟨_, rfl, by decide⟩⟩⟩⟩

/-- C6 fails on the code: the path handed to `Get` is `/oauth/access_token`, without an
`{access_token_id}` for `SetPathParam` to fill, so for every token id the URL requested is
`http://localhost:8080/oauth/access_token`; for the token `test` it is not the URL
`http://localhost:8080/oauth/access_token/test` that the tests register, and the lookup
answers the same for every token id. -/
theorem getAccessToken_url_leaves_token_out (t : String) :
    requestURL t = "http://localhost:8080/oauth/access_token" ∧
      requestURL "test" ≠ "http://localhost:8080/oauth/access_token/test" ∧
      ∀ client : Transport, (getAccessToken client t).1 = (getAccessToken client "test").1 := by
  have h : ∀ x : String, requestURL x = "http://localhost:8080/oauth/access_token" :=
    fun x => rfl
  refine ⟨h t, by decide, fun client => ?_⟩
  unfold getAccessToken restyGet
  rw [h t, h "test"]
  rcases client "http://localhost:8080/oauth/access_token" with x | ⟨code, a, e⟩ <;> rfl

/-- C7 (transport failures are opaque): when the HTTP call itself fails, `getAccessToken`
returns no token and the internal-server error of status 500 with the message
"error when trying to get access token"; `AuthenticateRequest` returns that error for a request
whose trimmed token is the one looked up; and the error value is the same whatever the
transport error was. -/
theorem getAccessToken_transport_failure_is_opaque (client : Transport)
    (accessTokenId text : String) (h : client (requestURL accessTokenId) = .failed text) :
    (getAccessToken client accessTokenId).1 =
        (none, some { Message := "error when trying to get access token", Status := 500,
                      Causes := ["rest_client_error"] }) ∧
      (∀ r v, NonBlankAccessToken r v → TrimSpace v = accessTokenId →
        (AuthenticateRequest client (some r)).result =
          .ok (some { Message := "error when trying to get access token", Status := 500,
                      Causes := ["rest_client_error"] })) ∧
      (∀ (other : Transport) (text2 : String),
        other (requestURL accessTokenId) = .failed text2 →
          getAccessToken other accessTokenId = getAccessToken client accessTokenId) := by
  have key : ∀ (c : Transport) (t : String), c (requestURL accessTokenId) = .failed t →
      (getAccessToken c accessTokenId).1 =
        (none, some { Message := "error when trying to get access token", Status := 500,
                      Causes := ["rest_client_error"] }) := by
    intro c t hc
    unfold getAccessToken restyGet
    rw [hc]
    rfl
  refine ⟨key client text h, ?_, fun other text2 h2 =>
    Prod.ext (by rw [key other text2 h2, key client text h])
      (by rw [getAccessToken_sent, getAccessToken_sent])⟩
  intro r v hv htrim
  obtain ⟨u, hu, hget, hne⟩ := trim_of_nonblank r v hv
  rw [AuthenticateRequest_error client r u hu (by rw [hget]; exact hne) none _
    (by rw [hget, htrim]; exact key client text h)]
  rfl

/-- Witness for C7: a refused connection while looking up the token `test`. -/
theorem getAccessToken_transport_failure_is_opaque_witness :
    serviceDown "connection refused" (requestURL "test") = .failed "connection refused" ∧
      ((getAccessToken (serviceDown "connection refused") "test").1 =
          (none, some { Message := "error when trying to get access token", Status := 500,
                        Causes := ["rest_client_error"] }) ∧
        (∀ r v, NonBlankAccessToken r v → TrimSpace v = "test" →
          (AuthenticateRequest (serviceDown "connection refused") (some r)).result =
            .ok (some { Message := "error when trying to get access token", Status := 500,
                        Causes := ["rest_client_error"] })) ∧
        (∀ (other : Transport) (text2 : String),
          other (requestURL "test") = .failed text2 →
            getAccessToken other "test" =
              getAccessToken (serviceDown "connection refused") "test")) :=
  ⟨rfl, getAccessToken_transport_failure_is_opaque (serviceDown "connection refused") "test"
    "connection refused" rfl⟩

/-- C8: `GetCallerId` (over `X-Caller-Id`) and `GetClientId` (over `X-Client-Id`) are total. Each
returns `n` when the first value of its header is a base-10 integer literal denoting `n` with
`-2^63 ≤ n ≤ 2^63-1`, and 0 in every other case: nil request, no header map, header absent,
empty value, text that is not a literal, or a number outside the signed 64-bit range. -/
theorem GetCallerId_GetClientId_read_literal (request : Option Request) :
    (∀ n, HoldsIdentity request headerXCallerId n → GetCallerId request = n) ∧
      ((¬ ∃ n, HoldsIdentity request headerXCallerId n) → GetCallerId request = 0) ∧
      (∀ n, HoldsIdentity request headerXClientId n → GetClientId request = n) ∧
      ((¬ ∃ n, HoldsIdentity request headerXClientId n) → GetClientId request = 0) ∧
      (∀ r s n, request = some r → IsDecimalLiteral s n → (n < -2 ^ 63 ∨ 2 ^ 63 - 1 < n) →
        (firstOf (Header.lookup r.Header headerXCallerId) = some s → GetCallerId request = 0) ∧
        (firstOf (Header.lookup r.Header headerXClientId) = some s → GetClientId request = 0)) := by
  have zero_caller : ∀ r : Request, (¬ ∃ n, HoldsIdentity (some r) headerXCallerId n) →
      GetCallerId (some r) = 0 := by
    intro r h
    have := (parsed_header_spec r headerXCallerId canonical_XCallerId).2 h
    rcases hp : ParseInt (r.Header.Get headerXCallerId) with ⟨x, _ | e⟩
    · rw [hp] at this; exact absurd rfl this
    · simp only [GetCallerId, hp]
  have zero_client : ∀ r : Request, (¬ ∃ n, HoldsIdentity (some r) headerXClientId n) →
      GetClientId (some r) = 0 := by
    intro r h
    have := (parsed_header_spec r headerXClientId canonical_XClientId).2 h
    rcases hp : ParseInt (r.Header.Get headerXClientId) with ⟨x, _ | e⟩
    · rw [hp] at this; exact absurd rfl this
    · simp only [GetClientId, hp]
  cases request with
  | none =>
    exact ⟨fun n h => absurd h (not_HoldsIdentity_nil _ n), fun _ => rfl,
      fun n h => absurd h (not_HoldsIdentity_nil _ n), fun _ => rfl,
      fun _ _ _ h => Option.noConfusion h⟩
  | some r =>
    refine ⟨fun n h => ?_, zero_caller r, fun n h => ?_, zero_client r, ?_⟩
    · simp only [GetCallerId, (parsed_header_spec r headerXCallerId canonical_XCallerId).1 n h]
    · simp only [GetClientId, (parsed_header_spec r headerXClientId canonical_XClientId).1 n h]
    · intro r' s n hr hlit hout
      cases hr
      exact ⟨fun hs => zero_caller r (not_HoldsIdentity_of_out_of_range r _ s n hs hlit hout),
        fun hs => zero_client r (not_HoldsIdentity_of_out_of_range r _ s n hs hlit hout)⟩

/-- Witness for C8: the header value `-9223372036854775808`, the least 64-bit integer, under
`X-Caller-Id`. -/
theorem GetCallerId_GetClientId_read_literal_witness :
    HoldsIdentity
        (some { Header := some (fun k =>
          if k = headerXCallerId then some ["-9223372036854775808"] else none), URL := none })
        headerXCallerId (-9223372036854775808) ∧
      GetCallerId
        (some { Header := some (fun k =>
          if k = headerXCallerId then some ["-9223372036854775808"] else none), URL := none }) =
        -9223372036854775808 :=
  have h : HoldsIdentity
      (some { Header := some (fun k =>
        if k = headerXCallerId then some ["-9223372036854775808"] else none), URL := none })
      headerXCallerId (-9223372036854775808) :=
    ⟨_, "-9223372036854775808", rfl, rfl,
      ⟨"9223372036854775808".data, by decide, by decide, Or.inr (Or.inr ⟨rfl, by decide⟩)⟩,
      by decide, by decide⟩
  ⟨h, (GetCallerId_GetClientId_read_literal _).1 _ h⟩

/-- C9: `IsPublic(r)` is true exactly when `r` is nil or the first value of its `X-Public`
header is the string `true`. It is false when the request has no header map, when the header
is absent, and for the values `True`, `TRUE`, ` true`, `1` and the empty string. -/
theorem IsPublic_true_iff (request : Option Request) :
    (IsPublic request = true ↔
        request = none ∨
          ∃ r, request = some r ∧ firstOf (Header.lookup r.Header headerXPublic) = some "true") ∧
      (∀ r, request = some r → r.Header = none → IsPublic request = false) ∧
      (∀ r, request = some r → Header.lookup r.Header headerXPublic = none →
        IsPublic request = false) ∧
      (∀ r v, request = some r → firstOf (Header.lookup r.Header headerXPublic) = some v →
        v ∈ ["True", "TRUE", " true", "1", ""] → IsPublic request = false) := by
  cases request with
  | none =>
    exact ⟨⟨fun _ => Or.inl rfl, fun _ => rfl⟩, fun _ h => Option.noConfusion h,
      fun _ h => Option.noConfusion h, fun _ _ h => Option.noConfusion h⟩
  | some r =>
    have hget := Header_Get_eq r.Header headerXPublic canonical_XPublic
    have hiff : IsPublic (some r) = true ↔
        firstOf (Header.lookup r.Header headerXPublic) = some "true" := by
      simp only [IsPublic, hget]
      rcases firstOf (Header.lookup r.Header headerXPublic) with _ | s
      · simp
      · simp
    refine ⟨⟨fun h => Or.inr ⟨r, rfl, hiff.1 h⟩, ?_⟩, ?_, ?_, ?_⟩
    · rintro (h | ⟨r', hr, h⟩)
      · cases h
      · cases hr; exact hiff.2 h
    · intro r' hr hnil
      cases hr
      rw [Bool.eq_false_iff, Ne, hiff, hnil]
      simp [Header.lookup, firstOf]
    · intro r' hr habs
      cases hr
      rw [Bool.eq_false_iff, Ne, hiff, habs]
      simp [firstOf]
    · intro r' v hr hv hmem
      cases hr
      rw [Bool.eq_false_iff, Ne, hiff, hv]
      intro h
      injection h with h
      subst h
      revert hmem
      decide

/-- Witness for C9: the request of `TestIsPublicNoError`, whose `X-Public` header is `true`,
and a request whose header reads `True`. -/
theorem IsPublic_true_iff_witness :
    IsPublic (some { Header := some (fun k => if k = headerXPublic then some ["true"] else none),
                     URL := none }) = true ∧
      IsPublic (some { Header := some (fun k =>
          if k = headerXPublic then some ["True"] else none), URL := none }) = false :=
  ⟨(IsPublic_true_iff _).1.2 (Or.inr ⟨_, rfl, rfl⟩),
    (IsPublic_true_iff _).2.2.2 _ "True" rfl rfl (by decide)⟩

/-- C10: for every request and every prior header state, after `clearRequest` both
`X-Client-Id` and `X-Caller-Id` read as the empty string, and `GetCallerId` and `GetClientId`
return 0; `clearRequest(nil)` does nothing. -/
theorem clearRequest_removes_identity (request : Option Request) :
    (∀ r, request = some r →
      ∃ r', clearRequest request = some r' ∧ r'.Header.Get headerXClientId = "" ∧
        r'.Header.Get headerXCallerId = "" ∧ r'.URL = r.URL) ∧
      GetCallerId (clearRequest request) = 0 ∧
      GetClientId (clearRequest request) = 0 ∧
      clearRequest none = none := by
  cases request with
  | none => exact ⟨fun _ h => Option.noConfusion h, rfl, rfl, rfl⟩
  | some r =>
    have h1 : Header.Get ((r.Header.Del headerXClientId).Del headerXCallerId) headerXClientId
        = "" := by
      rw [Header_Get_eq _ _ canonical_XClientId, (lookup_cleared r.Header).1]; rfl
    have h2 : Header.Get ((r.Header.Del headerXClientId).Del headerXCallerId) headerXCallerId
        = "" := by
      rw [Header_Get_eq _ _ canonical_XCallerId, (lookup_cleared r.Header).2]; rfl
    refine ⟨fun r' hr => ?_, ?_, ?_, rfl⟩
    · cases hr
      exact ⟨_, clearRequest_some r, h1, h2, rfl⟩
    · rw [clearRequest_some]
      simp only [GetCallerId, h2]
      rfl
    · rw [clearRequest_some]
      simp only [GetClientId, h1]
      rfl

/-- Witness for C10: the request of `TestClearRequest`, with both headers set. -/
theorem clearRequest_removes_identity_witness :
    ∃ r', clearRequest (some { Header := some (fun k =>
          if k = headerXClientId then some ["123456"]
          else if k = headerXCallerId then some ["34567"] else none), URL := none }) = some r' ∧
      r'.Header.Get headerXClientId = "" ∧ r'.Header.Get headerXCallerId = "" ∧
      r'.URL = none :=
  (clearRequest_removes_identity _).1 _ rfl

/-- C11 (round trip of identity through the headers): for all signed 64-bit client and user
ids, after `AuthenticateRequest` has succeeded with them, `GetClientId` returns the client id
and `GetCallerId` the user id, and the text written under each header is the canonical decimal
form: no plus sign, no leading zeros. -/
theorem identity_survives_the_headers (client : Transport) (r : Request) (v : String)
    (a : accessToken) (hv : NonBlankAccessToken r v)
    (hl : (getAccessToken client (TrimSpace v)).1 = (some a, none))
    (hc : -2 ^ 63 ≤ a.ClientId ∧ a.ClientId ≤ 2 ^ 63 - 1)
    (hu : -2 ^ 63 ≤ a.UserId ∧ a.UserId ≤ 2 ^ 63 - 1)
    (hok : (AuthenticateRequest client (some r)).result = .ok none) :
    GetClientId (AuthenticateRequest client (some r)).request = a.ClientId ∧
      GetCallerId (AuthenticateRequest client (some r)).request = a.UserId ∧
      ∃ r' sc su, (AuthenticateRequest client (some r)).request = some r' ∧
        Header.lookup r'.Header headerXClientId = some [sc] ∧ IsCanonicalDecimal sc a.ClientId ∧
        Header.lookup r'.Header headerXCallerId = some [su] ∧ IsCanonicalDecimal su a.UserId := by
  obtain ⟨u, hu', hget, hne⟩ := trim_of_nonblank r v hv
  have hrun := AuthenticateRequest_success client r u hu' (by rw [hget]; exact hne) a
    (by rw [hget]; exact hl)
  rw [hrun] at hok ⊢
  rcases hm : (r.Header.Del headerXClientId).Del headerXCallerId with _ | m
  · rw [hm] at hok; cases hok
  · have h1 : Header.lookup (some fun k =>
          if k = headerXCallerId then some [Sprintf a.UserId]
          else if k = headerXClientId then some [Sprintf a.ClientId]
          else m k) headerXClientId = some [Sprintf a.ClientId] := by
      simp [Header.lookup, client_ne_caller]
    have h2 : Header.lookup (some fun k =>
          if k = headerXCallerId then some [Sprintf a.UserId]
          else if k = headerXClientId then some [Sprintf a.ClientId]
          else m k) headerXCallerId = some [Sprintf a.UserId] := by
      simp [Header.lookup]
    refine ⟨?_, ?_, _, _, _, rfl, h1, Sprintf_canonical _ hc.1 hc.2, h2,
      Sprintf_canonical _ hu.1 hu.2⟩
    · simp only [GetClientId, Header_Get_eq _ _ canonical_XClientId, h1, firstOf,
        Option.getD_some, ParseInt_Sprintf _ hc.1 hc.2]
    · simp only [GetCallerId, Header_Get_eq _ _ canonical_XCallerId, h2, firstOf,
        Option.getD_some, ParseInt_Sprintf _ hu.1 hu.2]

/-- Witness for C11: the two extremes, client id `-2^63` and user id `2^63-1`, on a request with
forged identity headers. -/
theorem identity_survives_the_headers_witness :
    (NonBlankAccessToken spoofedRequestWithToken "test" ∧
      (getAccessToken serviceExtremes (TrimSpace "test")).1 =
        (some { Id := "test", UserId := 9223372036854775807,
                ClientId := -9223372036854775808 }, none) ∧
      (AuthenticateRequest serviceExtremes (some spoofedRequestWithToken)).result = .ok none) ∧
    (GetClientId (AuthenticateRequest serviceExtremes (some spoofedRequestWithToken)).request =
        -9223372036854775808 ∧
      GetCallerId (AuthenticateRequest serviceExtremes (some spoofedRequestWithToken)).request =
        9223372036854775807 ∧
      ∃ r' sc su,
        (AuthenticateRequest serviceExtremes (some spoofedRequestWithToken)).request = some r' ∧
        Header.lookup r'.Header headerXClientId = some [sc] ∧
        IsCanonicalDecimal sc (-9223372036854775808) ∧
        Header.lookup r'.Header headerXCallerId = some [su] ∧
        IsCanonicalDecimal su 9223372036854775807) :=
  ⟨⟨⟨_, rfl, rfl, by decide⟩, rfl, rfl⟩,
    identity_survives_the_headers serviceExtremes spoofedRequestWithToken "test"
      { Id := "test", UserId := 9223372036854775807, ClientId := -9223372036854775808 }
      ⟨_, rfl, rfl, by decide⟩ rfl (by decide) (by decide) rfl⟩

/-- C12: `clearRequest` is idempotent: for every request (nil included) and every header state,
clearing twice leaves exactly the request that clearing once leaves. -/
theorem clearRequest_twice (request : Option Request) :
    clearRequest (clearRequest request) = clearRequest request := by
  cases request with
  | none => rfl
  | some r =>
    rw [clearRequest_some, clearRequest_some]
    rcases r.Header with _ | m
    · rfl
    · simp only [Header.Del, canonical_XClientId, canonical_XCallerId]
      congr 3
      funext k
      by_cases hk2 : k = headerXCallerId
      · simp [hk2]
      · by_cases hk1 : k = headerXClientId
        · simp [hk1]
        · simp [hk1, hk2]

/-- C13, as stated, fails: on a request with forged identity headers and a service that answers
with a bad-request error, `AuthenticateRequest` returns the error, and the headers are not what
they were. Both identity headers were removed on entry. -/
theorem authenticate_error_after_clearing :
    (AuthenticateRequest
        (serviceError 400 { Message := "bad request", Status := 400, Causes := [] })
        (some spoofedRequestWithToken)).result =
      .ok (some { Message := "bad request", Status := 400, Causes := [] }) ∧
    Header.lookup spoofedRequestWithToken.Header headerXClientId = some ["1", "2"] ∧
    Header.lookup spoofedRequestWithToken.Header headerXCallerId = some ["9"] ∧
    IdentityHeadersAbsent (AuthenticateRequest
        (serviceError 400 { Message := "bad request", Status := 400, Causes := [] })
        (some spoofedRequestWithToken)).request ∧
    (AuthenticateRequest
        (serviceError 400 { Message := "bad request", Status := 400, Causes := [] })
        (some spoofedRequestWithToken)).request ≠ some spoofedRequestWithToken := by
  refine ⟨rfl, rfl, rfl, ⟨_, rfl, rfl, rfl⟩, fun h => ?_⟩
  have h1 := congrArg
    (fun q : Option Request => q.bind fun r => Header.lookup r.Header headerXClientId) h
  exact absurd h1 (by decide)

/-- C13, amended: whenever `AuthenticateRequest` returns an error, the only change it has made
to the request is the removal of `X-Client-Id` and `X-Caller-Id` on entry. The request is as
`clearRequest` leaves it: both identity headers absent, nothing written, every other header
and the URL as before. -/
theorem authenticate_error_only_clears (client : Transport) (r : Request) (e : RestErr)
    (h : (AuthenticateRequest client (some r)).result = .ok (some e)) :
    (AuthenticateRequest client (some r)).request = clearRequest (some r) ∧
      IdentityHeadersAbsent (AuthenticateRequest client (some r)).request ∧
      ∃ r', (AuthenticateRequest client (some r)).request = some r' ∧ r'.URL = r.URL ∧
        ∀ k, k ≠ headerXClientId → k ≠ headerXCallerId →
          Header.lookup r'.Header k = Header.lookup r.Header k := by
  rw [AuthenticateRequest_request_of_error client r e h]
  exact ⟨rfl, ⟨_, clearRequest_some r, (lookup_cleared r.Header).1, (lookup_cleared r.Header).2⟩,
    _, clearRequest_some r, rfl, fun k h1 h2 => lookup_cleared_other r.Header k h1 h2⟩

/-- Witness for C13: the bad-request scenario of the tests on a request with forged identity
headers. -/
theorem authenticate_error_only_clears_witness :
    (AuthenticateRequest
        (serviceError 400 { Message := "bad request", Status := 400, Causes := [] })
        (some spoofedRequestWithToken)).result =
      .ok (some { Message := "bad request", Status := 400, Causes := [] }) ∧
    ((AuthenticateRequest
        (serviceError 400 { Message := "bad request", Status := 400, Causes := [] })
        (some spoofedRequestWithToken)).request = clearRequest (some spoofedRequestWithToken) ∧
      IdentityHeadersAbsent (AuthenticateRequest
        (serviceError 400 { Message := "bad request", Status := 400, Causes := [] })
        (some spoofedRequestWithToken)).request ∧
      ∃ r', (AuthenticateRequest
          (serviceError 400 { Message := "bad request", Status := 400, Causes := [] })
          (some spoofedRequestWithToken)).request = some r' ∧
        r'.URL = spoofedRequestWithToken.URL ∧
        ∀ k, k ≠ headerXClientId → k ≠ headerXCallerId →
          Header.lookup r'.Header k = Header.lookup spoofedRequestWithToken.Header k) :=
  ⟨rfl, authenticate_error_only_clears _ spoofedRequestWithToken _ rfl⟩

/-- C14: for every non-nil request whose `access_token` parameter is non-blank,
`AuthenticateRequest` makes exactly one token lookup, whatever the service answers: the trace
of the run is the trace of one call of `getAccessToken`, which is one request sent, and the
token id passed to that call is the first value of the parameter without its leading and
trailing white space. A failed lookup is not tried again. -/
theorem authenticate_looks_up_once (client : Transport) (r : Request) (v : String)
    (hv : NonBlankAccessToken r v) :
    (AuthenticateRequest client (some r)).lookups =
        [{ accessTokenId := TrimSpace v, url := requestURL (TrimSpace v) }] ∧
      (AuthenticateRequest client (some r)).lookups.length = 1 ∧
      IsTrimOf (TrimSpace v) v ∧
      (AuthenticateRequest client (some r)).lookups = (getAccessToken client (TrimSpace v)).2 ∧
      (∀ e, (getAccessToken client (TrimSpace v)).1 = (none, some e) →
        (AuthenticateRequest client (some r)).lookups.length = 1 ∧
        (AuthenticateRequest client (some r)).result =
          if e.Status = StatusNotFound then .ok none else .ok (some e)) := by
  obtain ⟨u, hu, hget, hne⟩ := trim_of_nonblank r v hv
  have key : (AuthenticateRequest client (some r)).lookups =
      [{ accessTokenId := TrimSpace v, url := requestURL (TrimSpace v) }] := by
    rcases getAccessToken_cases client (TrimSpace v) with ⟨e, he⟩ | ⟨a, ha⟩
    · rw [AuthenticateRequest_error client r u hu (by rw [hget]; exact hne) none e
        (by rw [hget]; exact he), hget]
    · rw [AuthenticateRequest_success client r u hu (by rw [hget]; exact hne) a
        (by rw [hget]; exact ha), hget]
      rcases (r.Header.Del headerXClientId).Del headerXCallerId with _ | m <;> rfl
  refine ⟨key, by rw [key]; rfl, TrimSpace_spec v,
    by rw [key, getAccessToken_sent], fun e he => ⟨by rw [key]; rfl, ?_⟩⟩
  rw [AuthenticateRequest_error client r u hu (by rw [hget]; exact hne) none e
    (by rw [hget]; exact he)]

/-- Witness for C14: the token `test` with white space around it, against a service that is
down: one lookup, for `test`, and the error of that one failure is what is returned. -/
theorem authenticate_looks_up_once_witness :
    NonBlankAccessToken requestWithPaddedToken "  test\t" ∧
      ((AuthenticateRequest (serviceDown "connection refused")
          (some requestWithPaddedToken)).lookups =
          [{ accessTokenId := TrimSpace "  test\t", url := requestURL (TrimSpace "  test\t") }] ∧
        (AuthenticateRequest (serviceDown "connection refused")
          (some requestWithPaddedToken)).lookups.length = 1 ∧
        IsTrimOf (TrimSpace "  test\t") "  test\t" ∧
        (AuthenticateRequest (serviceDown "connection refused")
          (some requestWithPaddedToken)).lookups =
          (getAccessToken (serviceDown "connection refused") (TrimSpace "  test\t")).2 ∧
        (∀ e, (getAccessToken (serviceDown "connection refused") (TrimSpace "  test\t")).1 =
            (none, some e) →
          (AuthenticateRequest (serviceDown "connection refused")
            (some requestWithPaddedToken)).lookups.length = 1 ∧
          (AuthenticateRequest (serviceDown "connection refused")
            (some requestWithPaddedToken)).result =
            if e.Status = StatusNotFound then .ok none else .ok (some e))) ∧
      TrimSpace "  test\t" = "test" :=
  ⟨⟨_, rfl, rfl, by decide⟩,
    authenticate_looks_up_once (serviceDown "connection refused") requestWithPaddedToken
      "  test\t" ⟨_, rfl, rfl, by decide⟩,
    by decide⟩

/-- C15 (frame): for every request and every service, `AuthenticateRequest` and `clearRequest`
leave the URL with its query, and every header other than `X-Client-Id` and `X-Caller-Id`
(`X-Public` included, with all its values in their order), as they were; a nil request stays
nil; and `IsPublic` has the same value after either call as before. -/
theorem authenticate_touches_identity_headers_only (client : Transport)
    (request : Option Request) :
    (∀ r, request = some r →
      ∃ r', (AuthenticateRequest client request).request = some r' ∧ r'.URL = r.URL ∧
        ∀ k, k ≠ headerXClientId → k ≠ headerXCallerId →
          Header.lookup r'.Header k = Header.lookup r.Header k) ∧
    (∀ r, request = some r →
      ∃ r', clearRequest request = some r' ∧ r'.URL = r.URL ∧
        ∀ k, k ≠ headerXClientId → k ≠ headerXCallerId →
          Header.lookup r'.Header k = Header.lookup r.Header k) ∧
    (request = none →
      (AuthenticateRequest client request).request = none ∧ clearRequest request = none) ∧
    IsPublic (AuthenticateRequest client request).request = IsPublic request ∧
    IsPublic (clearRequest request) = IsPublic request := by
  cases request with
  | none =>
    exact ⟨fun _ h => Option.noConfusion h, fun _ h => Option.noConfusion h,
      fun _ => ⟨rfl, rfl⟩, rfl, rfl⟩
  | some r =>
    obtain ⟨r', h1, h2, _, h4⟩ := AuthenticateRequest_frame client r
    have hc : ∀ k, k ≠ headerXClientId → k ≠ headerXCallerId →
        Header.lookup ((r.Header.Del headerXClientId).Del headerXCallerId) k =
          Header.lookup r.Header k :=
      fun k hk1 hk2 => lookup_cleared_other r.Header k hk1 hk2
    refine ⟨fun x hx => ?_, fun x hx => ?_, fun h => Option.noConfusion h, ?_, ?_⟩
    · cases hx
      exact ⟨r', h1, h2, h4⟩
    · cases hx
      exact ⟨_, clearRequest_some r, rfl, hc⟩
    · rw [h1]
      exact IsPublic_congr r r' (h4 _ public_ne_identity.1 public_ne_identity.2)
    · rw [clearRequest_some]
      exact IsPublic_congr r _ (hc _ public_ne_identity.1 public_ne_identity.2)

/-- Witness for C15: a public request with two `X-Public` values, a forged client id and the
token `test`, resolved by a service that knows the token: the `X-Public` values and the URL
are as before, and the request is still public. -/
theorem authenticate_touches_identity_headers_only_witness :
    ∃ r', (AuthenticateRequest serviceFound (some
        { Header := some (fun k =>
            if k = headerXPublic then some ["true", "false"]
            else if k = headerXClientId then some ["1"] else none),
          URL := some { Query := tokenQuery "test" } })).request = some r' ∧
      r'.URL = some { Query := tokenQuery "test" } ∧
      Header.lookup r'.Header headerXPublic = some ["true", "false"] ∧
      IsPublic (some r') = true :=
  have h := authenticate_touches_identity_headers_only serviceFound (some
    { Header := some (fun k =>
        if k = headerXPublic then some ["true", "false"]
        else if k = headerXClientId then some ["1"] else none),
      URL := some { Query := tokenQuery "test" } })
  match h.1 _ rfl with
  | ⟨r', h1, h2, h3⟩ =>
    ⟨r', h1, h2, (h3 headerXPublic (by decide) (by decide)).trans rfl,
      (congrArg IsPublic h1).symm.trans (h.2.2.2.1.trans rfl)⟩

/-- C16, as stated, fails: the request `http.Request{URL: u}` with `access_token=test` has a
URL and a nil header map, and when the lookup succeeds `AuthenticateRequest` does not return
normally. It panics writing `X-Client-Id` to the nil map, while on a failed lookup the same
request returns normally. -/
theorem authenticate_nil_header_map_success_panics :
    (∃ u, requestWithoutHeader.URL = some u) ∧ requestWithoutHeader.Header = none ∧
      (AuthenticateRequest serviceFound (some requestWithoutHeader)).result =
        .error .assignmentToEntryInNilMap ∧
      (¬ ∃ e, (AuthenticateRequest serviceFound (some requestWithoutHeader)).result = .ok e) ∧
      (AuthenticateRequest
          (serviceError 400 { Message := "bad request", Status := 400, Causes := [] })
          (some requestWithoutHeader)).result =
        .ok (some { Message := "bad request", Status := 400, Causes := [] }) := by
  refine ⟨⟨_, rfl⟩, rfl, rfl, ?_, rfl⟩
  rintro ⟨e, he⟩
  have h : (AuthenticateRequest serviceFound (some requestWithoutHeader)).result =
      .error .assignmentToEntryInNilMap := rfl
  rw [h] at he
  cases he

/-- C16, amended: for a non-nil request that has a URL, `AuthenticateRequest` returns normally
(no panic) in every case but one: a nil header map together with a non-blank token whose
lookup succeeds. With an initialised header map it returns normally on every lookup outcome,
success included; with a nil header map it returns normally when the token is blank or the
lookup fails. -/
theorem authenticate_returns_normally_iff (client : Transport) (r : Request) (u : URL)
    (hu : r.URL = some u) :
    ((∃ e, (AuthenticateRequest client (some r)).result = .ok e) ↔
        ¬ (r.Header = none ∧
          ∃ v a, NonBlankAccessToken r v ∧ (getAccessToken client (TrimSpace v)).1 = (some a, none))) ∧
      (r.Header ≠ none → ∃ e, (AuthenticateRequest client (some r)).result = .ok e) := by
  have main : (∃ e, (AuthenticateRequest client (some r)).result = .ok e) ↔
      ¬ (r.Header = none ∧
        ∃ v a, NonBlankAccessToken r v ∧ (getAccessToken client (TrimSpace v)).1 = (some a, none)) := by
    by_cases ht : TrimSpace (Values.Get u.Query paramAccessToken) = ""
    · rw [AuthenticateRequest_blank client r u hu ht]
      refine ⟨fun _ => ?_, fun _ => ⟨none, rfl⟩⟩
      rintro ⟨_, v, a, hv, _⟩
      obtain ⟨u', hu', hget, hne⟩ := trim_of_nonblank r v hv
      rw [hu] at hu'
      cases hu'
      rw [hget] at ht
      exact hne ht
    · have hv := nonblank_of_trim r u hu ht
      rcases getAccessToken_cases client (TrimSpace (Values.Get u.Query paramAccessToken))
        with ⟨e, he⟩ | ⟨a, ha⟩
      · rw [AuthenticateRequest_error client r u hu ht none e he]
        refine ⟨fun _ => ?_, fun _ => ?_⟩
        · rintro ⟨_, v, a, hv', hl⟩
          obtain ⟨u', hu', hget, _⟩ := trim_of_nonblank r v hv'
          rw [hu] at hu'
          cases hu'
          rw [← hget, he] at hl
          cases hl
        · by_cases hs : e.Status = StatusNotFound
          · exact ⟨none, by simp only [hs, if_true]⟩
          · exact ⟨some e, by simp only [hs, if_false]⟩
      · rw [AuthenticateRequest_success client r u hu ht a ha]
        rcases hh : r.Header with _ | m
        · refine ⟨fun h => ?_, fun h => ?_⟩
          · obtain ⟨e, he⟩ := h
            cases he
          · exact absurd ⟨rfl, _, a, hv, ha⟩ h
        · exact ⟨fun _ h => Option.noConfusion h.1, fun _ => ⟨none, rfl⟩⟩
  exact ⟨main, fun hne => main.2 (fun h => hne h.1)⟩

/-- Witness for C16: a request with an initialised header map whose lookup succeeds, and the
request `http.Request{URL: u}` with a nil header map whose lookup fails; both return
normally. -/
theorem authenticate_returns_normally_iff_witness :
    (spoofedRequestWithToken.URL = some { Query := tokenQuery "test" } ∧
      spoofedRequestWithToken.Header ≠ none ∧
      ∃ e, (AuthenticateRequest serviceFound (some spoofedRequestWithToken)).result = .ok e) ∧
    (requestWithoutHeader.URL = some { Query := tokenQuery "test" } ∧
      requestWithoutHeader.Header = none ∧
      ∃ e, (AuthenticateRequest
        (serviceError 400 { Message := "bad request", Status := 400, Causes := [] })
        (some requestWithoutHeader)).result = .ok e) :=
  ⟨⟨rfl, by simp [spoofedRequestWithToken],
      (authenticate_returns_normally_iff serviceFound spoofedRequestWithToken _ rfl).2
        (by simp [spoofedRequestWithToken])⟩,
    ⟨rfl, rfl,
      (authenticate_returns_normally_iff
        (serviceError 400 { Message := "bad request", Status := 400, Causes := [] })
        requestWithoutHeader _ rfl).1.2
        (fun h => by
          obtain ⟨_, v, a, _, hl⟩ := h
          have e : (getAccessToken
              (serviceError 400 { Message := "bad request", Status := 400, Causes := [] })
              (TrimSpace v)).1 =
              (none, some { Message := "bad request", Status := 400, Causes := [] }) := rfl
          rw [e] at hl
          cases hl)⟩⟩

end oauth
